import Mathlib

/-!
Verification development for the HallOfFameServer creator-identity core
(`creator.service.ts` and `minecraft-auth.service.ts`).

The TypeScript source is shallowly embedded:
* JS strings are Lean `String`s (`String.length` stands in for the UTF-16
  code-unit count, which agrees on the BMP inputs considered here);
* `string | null` fields are `Option String`, with JS truthiness made explicit
  (`null` and `""` are falsy);
* the Prisma store is a `Store` value: a list of rows, a fresh-id counter and a
  write counter; thrown exceptions become `Except` errors, and every operation
  returns the store it left behind so that "no write occurred" is a provable
  statement;
* `fetch`-backed Minecraft account verification is an explicit function
  parameter (dependency injection), as the flow only observes its
  profile-or-error result.
-/

namespace HallOfFame

deriving instance DecidableEq for Except


/-- The JS whitespace class `\s` (and `String.prototype.trim`), restricted to
the code points that can actually appear in the data considered here. -/
def jsWhitespace (c : Char) : Bool :=
  c == ' ' || c == '\t' || c == '\n' || c == '\r' ||
  c == Char.ofNat 11 || c == Char.ofNat 12 ||
  c == Char.ofNat 0x00a0 || c == Char.ofNat 0x2028 ||
  c == Char.ofNat 0x2029 || c == Char.ofNat 0xfeff

/-- JS `toLowerCase`, restricted to the ASCII mapping actually exercised by
the inputs in scope (identity outside `A`–`Z`). -/
def jsToLower (c : Char) : Char :=
  if 'A' ≤ c && c ≤ 'Z' then Char.ofNat (c.toNat + 32) else c

/-- JS truthiness of a `string | null` value: `null` and `""` are falsy. -/
def isTruthy : Option String → Bool
  | none => false
  | some s => !(s == "")

/-- JS `!value?.trim()`: the value is absent or only whitespace. -/
def isBlankOpt : Option String → Bool
  | none => true
  | some s => s.toList.all jsWhitespace

/-- Insertion-order deduplication, keeping the first occurrence of each
element — the semantics of `Array.from(new Set(list))` in JS. -/
def dedupKeepFirst : List String → List String
  | [] => []
  | x :: xs => x :: (dedupKeepFirst xs).filter (fun y => y ≠ x)

/-- The bounded-history merge used for `hwids` and `ips`:
`Array.from(new Set([v, ...history])).slice(0, 3)`. -/
def mergeMru3 (history : List String) (v : String) : List String :=
  (dedupKeepFirst (v :: history)).take 3

/-- `replace(/\s+/g, ' ')`: every maximal whitespace run becomes one space
(note: runs at the ends become a space too, they are not removed). A
whitespace character is dropped when the next character continues the same
run, and emits the single replacement space when it ends the run. -/
def collapseWhitespace : List Char → List Char
  | [] => []
  | [c] => if jsWhitespace c then [' '] else [c]
  | c :: d :: cs =>
    if jsWhitespace c then
      if jsWhitespace d then collapseWhitespace (d :: cs)
      else ' ' :: collapseWhitespace (d :: cs)
    else c :: collapseWhitespace (d :: cs)

/-- The apostrophe character `'` (U+0027). -/
def apostrophe : Char := Char.ofNat 39

/-- The genuine right single quotation mark `’` (U+2019). The source does
*not* strip this character: its second `replaceAll` targets the mojibake
spelling below instead. -/
def rightQuote : Char := Char.ofNat 0x2019

/-- `â` (U+00E2), first character of the source's mojibake apostrophe
literal. -/
def mojibake1 : Char := Char.ofNat 0xe2

/-- `€` (U+20AC), second character of the source's mojibake apostrophe
literal. -/
def mojibake2 : Char := Char.ofNat 0x20ac

/-- `™` (U+2122), third character of the source's mojibake apostrophe
literal. -/
def mojibake3 : Char := Char.ofNat 0x2122

/-- `replaceAll('â€™', '')`: the source file's second apostrophe-stripping
literal is, byte for byte, the three-character sequence U+00E2 U+20AC U+2122
(a UTF-8 mojibake of `’`). JS `replaceAll` with an empty replacement removes
each occurrence in a single left-to-right non-overlapping pass and does not
re-scan across a removal boundary. -/
def stripMojibakeSeq : List Char → List Char
  | c1 :: c2 :: c3 :: tail =>
    if c1 == mojibake1 && c2 == mojibake2 && c3 == mojibake3 then
      stripMojibakeSeq tail
    else c1 :: stripMojibakeSeq (c2 :: c3 :: tail)
  | c1 :: rest => c1 :: stripMojibakeSeq rest
  | [] => []

/-- `replaceAll("'", '').replaceAll('â€™', '')`: first every ASCII apostrophe
is removed, then every occurrence of the literal mojibake sequence; a genuine
`’` (U+2019) is left in place. -/
def stripApostrophes (l : List Char) : List Char :=
  stripMojibakeSeq (l.filter (fun c => !(c == apostrophe)))

/-- `replace(/\s+|-+/g, '-')`: every maximal whitespace run and every maximal
hyphen run becomes a single hyphen (a mixed run yields one hyphen per
homogeneous sub-run, exactly as the alternation regex matches greedily). A
run character is dropped while the next character continues the same
homogeneous run, and emits the single replacement hyphen when the run ends. -/
def collapseSpaceHyphenRuns : List Char → List Char
  | [] => []
  | [c] => if jsWhitespace c || c == '-' then ['-'] else [c]
  | c :: d :: cs =>
    if jsWhitespace c then
      if jsWhitespace d then collapseSpaceHyphenRuns (d :: cs)
      else '-' :: collapseSpaceHyphenRuns (d :: cs)
    else if c == '-' then
      if d == '-' then collapseSpaceHyphenRuns (d :: cs)
      else '-' :: collapseSpaceHyphenRuns (d :: cs)
    else c :: collapseSpaceHyphenRuns (d :: cs)

/-- `replace(/^-+|-+$/g, '')`: remove the leading and the trailing hyphen run. -/
def trimHyphens (l : List Char) : List Char :=
  (((l.dropWhile (fun c => c == '-')).reverse.dropWhile (fun c => c == '-')).reverse)

/-- `CreatorService.getCreatorNameSlug`: `null`/blank in, `null` out; otherwise
strip apostrophe variants, collapse whitespace/hyphen runs to hyphens, trim
leading/trailing hyphens, lower-case. -/
def getCreatorNameSlug : Option String → Option String
  | none => none
  | some s =>
    if s.toList.all jsWhitespace then none
    else
      some (String.mk
        (((trimHyphens (collapseSpaceHyphenRuns (stripApostrophes s.toList)))).map jsToLower))

/-- A hexadecimal character, either case. -/
def isHexDigit (c : Char) : Bool :=
  ('0' ≤ c && c ≤ '9') || ('a' ≤ c && c ≤ 'f') || ('A' ≤ c && c ≤ 'F')

/-- Lower-case hexadecimal digit (the uuid library's regex is applied
case-insensitively, i.e. to the lower-cased input). -/
def isHexLower (c : Char) : Bool :=
  ('0' ≤ c && c ≤ '9') || ('a' ≤ c && c ≤ 'f')

/-- The version nibble of the uuid regex: `[1-8]`. -/
def uuidVersionOk (c : Char) : Bool := '1' ≤ c && c ≤ '8'

/-- The variant nibble of the uuid regex: `[89ab]`. -/
def uuidVariantOk (c : Char) : Bool :=
  c == '8' || c == '9' || c == 'a' || c == 'b'

/-- The nil UUID, accepted specially by `uuid.validate`. -/
def nilUuid : String := "00000000-0000-0000-0000-000000000000"

/-- The max UUID, accepted specially by `uuid.validate`. -/
def maxUuid : String := "ffffffff-ffff-ffff-ffff-ffffffffffff"

/-- The standard-form branch of the uuid library's validation regex
`[0-9a-f]{8}-[0-9a-f]{4}-[1-8][0-9a-f]{3}-[89ab][0-9a-f]{3}-[0-9a-f]{12}`
on an already lower-cased character list, transcribed group by group. -/
def uuidStdOk (l : List Char) : Bool :=
  l.length == 36 &&
  (l.take 8).all isHexLower &&
  l.getD 8 '?' == '-' &&
  ((l.drop 9).take 4).all isHexLower &&
  l.getD 13 '?' == '-' &&
  uuidVersionOk (l.getD 14 '?') &&
  ((l.drop 15).take 3).all isHexLower &&
  l.getD 18 '?' == '-' &&
  uuidVariantOk (l.getD 19 '?') &&
  ((l.drop 20).take 3).all isHexLower &&
  l.getD 23 '?' == '-' &&
  (l.drop 24).all isHexLower

/-- `uuid.validate` (case-insensitive regex: standard form, nil or max UUID). -/
def uuidValidate (s : String) : Bool :=
  let l := s.toList.map jsToLower
  uuidStdOk l || l == nilUuid.toList || l == maxUuid.toList

/-- `uuid.validate(id) && uuid.version(id) == 4`: `uuid.version` reads the
hexadecimal digit at position 14 of a validated UUID. -/
def isUuidV4 (s : String) : Bool :=
  uuidValidate s && (s.toList.map jsToLower).getD 14 '?' == '4'

/-- Errors raised by `MinecraftAuthService`. -/
inductive MinecraftAuthErr where
  | requestError (message : String)
  | invalidAccessToken
  | malformedResponse
  | invalidUuid (value : String)
deriving DecidableEq, Repr

/-- The profile returned by `MinecraftAuthService.verifyOfficialAccount`. -/
structure MinecraftOfficialProfile where
  uuid : String
  username : Option String
deriving DecidableEq, Repr

/-- Re-insert the canonical `8-4-4-4-12` hyphens into a compact (hyphen-free)
form: `compact.slice(0, 8) + '-' + compact.slice(8, 12) + '-' + ...`. -/
def hyphenateCompact (compact : List Char) : List Char :=
  compact.take 8 ++ ['-'] ++ ((compact.drop 8).take 4) ++ ['-'] ++
    ((compact.drop 12).take 4) ++ ['-'] ++ ((compact.drop 16).take 4) ++ ['-'] ++
    compact.drop 20

/-- `MinecraftAuthService.normalizeUuid`: strip hyphens, lower-case, require
exactly 32 characters, re-insert canonical hyphens, require the result to
validate as a UUID. -/
def normalizeUuid (input : String) : Except MinecraftAuthErr String :=
  let compact := (input.toList.filter (fun c => !(c == '-'))).map jsToLower
  if !(compact.length == 32) then
    .error (.invalidUuid input)
  else
    let hyphenated := String.mk (hyphenateCompact compact)
    if !(uuidValidate hyphenated) then
      .error (.invalidUuid input)
    else
      .ok hyphenated

/-- The Creator-ID providers (`Creator['creatorIdProvider']`); `other` stands
for any value outside the four known tags, handled by the `default` case. -/
inductive Provider where
  | paradox
  | «local»
  | minecraft_official
  | minecraft_offline
  | other (name : String)
deriving DecidableEq, Repr

/-- The `Creator` row, restricted to the fields the identity core reads or
writes (translation metadata fields are not consulted by any claim). -/
structure Creator where
  id : Nat
  creatorId : String
  creatorIdProvider : Provider
  creatorName : Option String
  creatorNameSlug : Option String
  minecraftPlayerUuid : Option String
  allowCreatorIdReset : Bool
  hwids : List String
  ips : List String
deriving DecidableEq, Repr

/-- The Prisma store: rows, a fresh-id counter for inserts, and a counter of
performed write operations (so "no write occurred" is observable). -/
structure Store where
  creators : List Creator
  nextId : Nat
  writes : Nat
deriving DecidableEq, Repr

/-- Errors thrown by the creator service (one constructor per error class;
`assertionFailed` stands for node's `AssertionError`, which is not part of the
`CreatorError` taxonomy, and `prismaUniqueViolation` for a Prisma `P2002`
unique-constraint error). -/
inductive CreatorErr where
  | invalidCreatorId (creatorId : String)
  | missingMinecraftOfficialAccessToken
  | missingMinecraftOfflinePlayerUuid
  | invalidMinecraftPlayerUuid (value : String)
  | unsupportedCreatorIdProvider (provider : String)
  | minecraftOfficialAuthentication (cause : MinecraftAuthErr)
  | invalidCreatorName (incorrectName : String)
  | creatorNotFound
  | incorrectCreatorId (creatorName : String)
  | assertionFailed (message : String)
  | prismaUniqueViolation
deriving DecidableEq, Repr

/-- `CreatorService.validateCreatorName`: `null`/blank in, `null` out; then a
length check on the *raw* string, then `replace(/\s+/g, ' ')` (no trim). -/
def validateCreatorName : Option String → Except CreatorErr (Option String)
  | none => .ok none
  | some s =>
    if s.toList.all jsWhitespace then .ok none
    else if s.toList.length > 25 then .error (.invalidCreatorName s)
    else .ok (some (String.mk (collapseWhitespace s.toList)))

/-- Replace the row with the given id (Prisma `update where id`), counting the
write. -/
def storeUpdate (st : Store) (id : Nat) (row : Creator) : Store :=
  { st with
    creators := st.creators.map (fun x => if x.id == id then row else x),
    writes := st.writes + 1 }

/-- The mod authorization payload (`ModCreatorAuthorization`). -/
structure ModCreatorAuthorization where
  creatorName : Option String
  creatorId : String
  creatorIdProvider : Provider
  hwid : String
  ip : String
  minecraftAccessToken : Option String
  minecraftPlayerUuid : Option String
deriving DecidableEq, Repr

/-- Message of the `assert(creators.length == 2)` invariant check. -/
def assertMsgTwo : String :=
  "Only two creators are returned, otherwise there are non-unique Creator Names."

/-- Message of the `assert(effectiveCreatorName)` invariant check. -/
def assertMsgName : String :=
  "Creator Name can only be non-null if >1 creators are found."

/-- Message of the `assert(creator.creatorName)` check in the update path. -/
def assertMsgOwnerName : String := "creator.creatorName"

/-- The search conditions of the disjunctive match query (`SearchCond` is one
Prisma `where` term). -/
inductive SearchCond where
  | byCreatorId (value : String)
  | byCreatorName (value : String)
  | byCreatorNameSlug (value : Option String)
  | byMinecraftPlayerUuid (value : String)
deriving DecidableEq, Repr

/-- Whether a row matches one search condition. -/
def matchesCond (c : Creator) : SearchCond → Bool
  | .byCreatorId v => c.creatorId == v
  | .byCreatorName v => c.creatorName == some v
  | .byCreatorNameSlug v => c.creatorNameSlug == v
  | .byMinecraftPlayerUuid v => c.minecraftPlayerUuid == some v

/-- The condition list built by `authenticateCreatorForModUnsafe`: the
effective Creator ID always; name and slug only when the effective name is
truthy; the Minecraft UUID only when truthy. -/
def modSearchConditions (effectiveCreatorId : String)
    (effectiveCreatorName : Option String) (creatorNameSlug : Option String)
    (effectiveMinecraftPlayerUuid : Option String) : List SearchCond :=
  [SearchCond.byCreatorId effectiveCreatorId] ++
  (match effectiveCreatorName with
    | some n => if n == "" then [] else
        [SearchCond.byCreatorName n, SearchCond.byCreatorNameSlug creatorNameSlug]
    | none => []) ++
  (match effectiveMinecraftPlayerUuid with
    | some u => if u == "" then [] else [SearchCond.byMinecraftPlayerUuid u]
    | none => [])

/-- `prisma.creator.findMany` with the disjunction of the given conditions. -/
def runModQuery (st : Store) (conds : List SearchCond) : List Creator :=
  st.creators.filter (fun c => conds.any (matchesCond c))

/-- The provider-specific claim resolution (step 1 of
`authenticateCreatorForModUnsafe`): produces the effective Creator ID, the
effective Creator Name and the effective Minecraft player UUID. The official
verifier is the `verify` parameter; all of its errors are `MinecraftAuthError`
instances and are re-signalled as `MinecraftOfficialAuthenticationError`
(resp. `InvalidMinecraftPlayerUuidError` for `normalizeUuid`, whose only
failure is `MinecraftAuthInvalidUuidError`). -/
def modEffective (verify : String → Except MinecraftAuthErr MinecraftOfficialProfile)
    (auth : ModCreatorAuthorization) :
    Except CreatorErr (String × Option String × Option String) :=
  match auth.creatorIdProvider with
  | .minecraft_official =>
    if isBlankOpt auth.minecraftAccessToken then
      .error .missingMinecraftOfficialAccessToken
    else
      match verify (auth.minecraftAccessToken.getD "") with
      | .error e => .error (.minecraftOfficialAuthentication e)
      | .ok profile =>
        let effName :=
          if !isTruthy auth.creatorName && isTruthy profile.username then
            profile.username
          else auth.creatorName
        .ok (profile.uuid, effName, some profile.uuid)
  | .minecraft_offline =>
    if isBlankOpt auth.minecraftPlayerUuid then
      .error .missingMinecraftOfflinePlayerUuid
    else
      match normalizeUuid (auth.minecraftPlayerUuid.getD "") with
      | .error _ => .error (.invalidMinecraftPlayerUuid (auth.minecraftPlayerUuid.getD ""))
      | .ok u => .ok (auth.creatorId, auth.creatorName, some u)
  | .paradox => .ok (auth.creatorId, auth.creatorName, none)
  | .«local» => .ok (auth.creatorId, auth.creatorName, none)
  | .other p => .error (.unsupportedCreatorIdProvider p)

/-- The shared context captured by the `createCreator` / `updateCreator`
closures. -/
structure CreatorContext where
  effectiveCreatorId : String
  effectiveCreatorName : Option String
  effectiveMinecraftPlayerUuid : Option String
  creatorNameSlug : Option String
  hwid : String
  ip : String
  creatorIdProvider : Provider
deriving DecidableEq, Repr

/-- The row inserted by `createCreator` for a validated name. -/
def createdRow (st : Store) (ctx : CreatorContext) (validatedName : Option String) :
    Creator :=
  { id := st.nextId
    creatorId := ctx.effectiveCreatorId
    creatorIdProvider := ctx.creatorIdProvider
    creatorName := validatedName
    creatorNameSlug := ctx.creatorNameSlug
    minecraftPlayerUuid := ctx.effectiveMinecraftPlayerUuid
    allowCreatorIdReset := false
    hwids := [ctx.hwid]
    ips := [ctx.ip] }

/-- The `createCreator` closure: validate the name, then insert (a Prisma
insert raises `P2002` when a row with the same `creatorId` already exists —
the unique key of the `Creator` table). -/
def createCreator (st : Store) (ctx : CreatorContext) :
    Store × Except CreatorErr Creator :=
  match validateCreatorName ctx.effectiveCreatorName with
  | .error e => (st, .error e)
  | .ok validatedName =>
    if st.creators.any (fun c => c.creatorId == ctx.effectiveCreatorId) then
      (st, .error .prismaUniqueViolation)
    else
      let newCreator := createdRow st ctx validatedName
      ({ creators := st.creators ++ [newCreator]
         nextId := st.nextId + 1
         writes := st.writes + 1 }, .ok newCreator)

/-- The row written by `updateCreator` when a change was detected: the
effective values, the merged MRU-3 histories, and a cleared reset flag. -/
def updatedRow (creator : Creator) (ctx : CreatorContext) (newName : Option String) :
    Creator :=
  { creator with
    creatorName := newName
    creatorNameSlug := ctx.creatorNameSlug
    allowCreatorIdReset := false
    creatorId := ctx.effectiveCreatorId
    creatorIdProvider := ctx.creatorIdProvider
    minecraftPlayerUuid := ctx.effectiveMinecraftPlayerUuid
    hwids := mergeMru3 creator.hwids ctx.hwid
    ips := mergeMru3 creator.ips ctx.ip }

/-- The `updateCreator` closure: ownership check (Creator ID must match unless
the reset flag is set or the linked Minecraft player is the same), change
detection, then the write (re-validating the name only when it changed). -/
def updateCreator (st : Store) (creator : Creator) (ctx : CreatorContext) :
    Store × Except CreatorErr Creator :=
  let isSameMinecraftPlayer :=
    isTruthy ctx.effectiveMinecraftPlayerUuid &&
      creator.minecraftPlayerUuid == ctx.effectiveMinecraftPlayerUuid
  if (creator.creatorId != ctx.effectiveCreatorId) &&
      !creator.allowCreatorIdReset && !isSameMinecraftPlayer then
    match creator.creatorName with
    | some n =>
      if n == "" then (st, .error (.assertionFailed assertMsgOwnerName))
      else (st, .error (.incorrectCreatorId n))
    | none => (st, .error (.assertionFailed assertMsgOwnerName))
  else
    let modified :=
      (creator.creatorName != ctx.effectiveCreatorName) ||
      (creator.creatorNameSlug != ctx.creatorNameSlug) ||
      (creator.hwids.head? != some ctx.hwid) ||
      (creator.ips.head? != some ctx.ip) ||
      (creator.creatorId != ctx.effectiveCreatorId) ||
      (creator.minecraftPlayerUuid != ctx.effectiveMinecraftPlayerUuid) ||
      (creator.creatorIdProvider != ctx.creatorIdProvider)
    if !modified then (st, .ok creator)
    else
      match
        (if creator.creatorName == ctx.effectiveCreatorName then
          .ok ctx.effectiveCreatorName
        else validateCreatorName ctx.effectiveCreatorName) with
      | .error e => (st, .error e)
      | .ok newName =>
        let updatedCreator := updatedRow creator ctx newName
        (storeUpdate st creator.id updatedCreator, .ok updatedCreator)

/-- `CreatorService.authenticateCreatorForModUnsafe`: provider resolution,
Creator-ID validation, disjunctive match query, cardinality disambiguation,
then create or update. -/
def authenticateCreatorForModUnsafe
    (verify : String → Except MinecraftAuthErr MinecraftOfficialProfile)
    (st : Store) (auth : ModCreatorAuthorization) :
    Store × Except CreatorErr Creator :=
  match modEffective verify auth with
  | .error e => (st, .error e)
  | .ok (effectiveCreatorId, effectiveCreatorName, effectiveMinecraftPlayerUuid) =>
    if !isUuidV4 effectiveCreatorId then
      (st, .error (.invalidCreatorId effectiveCreatorId))
    else
      let creatorNameSlug := getCreatorNameSlug effectiveCreatorName
      let conds := modSearchConditions effectiveCreatorId effectiveCreatorName
        creatorNameSlug effectiveMinecraftPlayerUuid
      let creators := runModQuery st conds
      let ctx : CreatorContext := {
        effectiveCreatorId := effectiveCreatorId
        effectiveCreatorName := effectiveCreatorName
        effectiveMinecraftPlayerUuid := effectiveMinecraftPlayerUuid
        creatorNameSlug := creatorNameSlug
        hwid := auth.hwid
        ip := auth.ip
        creatorIdProvider := auth.creatorIdProvider }
      if creators.length > 1 then
        if !(creators.length == 2) then
          (st, .error (.assertionFailed assertMsgTwo))
        else
          match effectiveCreatorName with
          | some n =>
            if n == "" then (st, .error (.assertionFailed assertMsgName))
            else (st, .error (.incorrectCreatorId n))
          | none => (st, .error (.assertionFailed assertMsgName))
      else
        match creators with
        | [] => createCreator st ctx
        | creator :: _ => updateCreator st creator ctx

/-- `CreatorService.authenticateCreatorForMod`: run the unsafe procedure; if
(and only if) it threw a Prisma `P2002` unique-constraint error, run the whole
procedure a second time; every other error, and any error of the second run,
propagates. The two runs execute against a shared store that concurrent
requests may write to in between, so the procedure's two invocations are
embedded as an attempt stream: `attempt n` is the outcome of the `n`-th
invocation of `authenticateCreatorForModUnsafe` (against the store state it
then observes). -/
def authenticateCreatorForMod
    (attempt : Nat → Store × Except CreatorErr Creator) :
    Store × Except CreatorErr Creator :=
  match attempt 0 with
  | (st, .ok creator) => (st, .ok creator)
  | (st, .error e) =>
    if e == .prismaUniqueViolation then attempt 1
    else (st, .error e)

/-- The race-free instantiation of the attempt stream: every invocation of
the unsafe procedure observes the same store state. -/
def soleAttempt (verify : String → Except MinecraftAuthErr MinecraftOfficialProfile)
    (st : Store) (auth : ModCreatorAuthorization) :
    Nat → Store × Except CreatorErr Creator :=
  fun _ => authenticateCreatorForModUnsafe verify st auth

/-- `CreatorService.authenticateCreatorSimple`: find the account by Creator
ID; fail with `CreatorNotFoundError` on a miss; merge the IP into the MRU-3
history only when the newest stored IP differs. -/
def authenticateCreatorSimple (st : Store) (creatorId : String) (ip : String) :
    Store × Except CreatorErr Creator :=
  match st.creators.find? (fun c => c.creatorId == creatorId) with
  | none => (st, .error .creatorNotFound)
  | some creator =>
    if creator.ips.head? != some ip then
      let updated := { creator with ips := mergeMru3 creator.ips ip }
      (storeUpdate st creator.id updated, .ok updated)
    else (st, .ok creator)

/-- The context value `authenticateCreatorForModUnsafe` hands to the
create/update closures. -/
def mkContext (auth : ModCreatorAuthorization) (effId : String)
    (effName effMc : Option String) : CreatorContext :=
  { effectiveCreatorId := effId
    effectiveCreatorName := effName
    effectiveMinecraftPlayerUuid := effMc
    creatorNameSlug := getCreatorNameSlug effName
    hwid := auth.hwid
    ip := auth.ip
    creatorIdProvider := auth.creatorIdProvider }

/-! ### Concrete fixtures used by witnesses and counterexamples -/

/-- A verifier stub for scenarios that never reach the official provider. -/
def noVerify : String → Except MinecraftAuthErr MinecraftOfficialProfile :=
  fun _ => .error .invalidAccessToken

/-- A well-formed v4 Creator ID. -/
def uidA : String := "11111111-2222-4333-8444-555555555555"

/-- A second, distinct well-formed v4 Creator ID. -/
def uidB : String := "99999999-2222-4333-8444-555555555555"

/-- A canonical Minecraft player UUID. -/
def mcU : String := "d8a2c95f-2e67-4f09-9923-0e13a5f8c001"

/-- A stored account owning `uidA` and the name `Alice`. -/
def alice : Creator :=
  { id := 1, creatorId := uidA, creatorIdProvider := Provider.paradox,
    creatorName := some "Alice", creatorNameSlug := some "alice",
    minecraftPlayerUuid := none, allowCreatorIdReset := false,
    hwids := ["h1"], ips := ["i1"] }

/-- A stored account owning `uidB` and the name `Bob`. -/
def bob : Creator :=
  { id := 2, creatorId := uidB, creatorIdProvider := Provider.paradox,
    creatorName := some "Bob", creatorNameSlug := some "bob",
    minecraftPlayerUuid := none, allowCreatorIdReset := false,
    hwids := ["h2"], ips := ["i2"] }

/-- An account with a linked Minecraft player UUID. -/
def carol : Creator :=
  { id := 1, creatorId := uidA, creatorIdProvider := Provider.minecraft_offline,
    creatorName := some "Carol", creatorNameSlug := some "carol",
    minecraftPlayerUuid := some mcU, allowCreatorIdReset := false,
    hwids := ["h1"], ips := ["i1"] }

/-- An account matched only through its name slug, with the reset flag set. -/
def slugCreator : Creator :=
  { id := 1, creatorId := uidA, creatorIdProvider := Provider.paradox,
    creatorName := some "a b", creatorNameSlug := some "a-b",
    minecraftPlayerUuid := none, allowCreatorIdReset := true,
    hwids := ["h1"], ips := ["i1"] }

/-- The store holding only `alice`. -/
def aliceStore : Store := { creators := [alice], nextId := 2, writes := 0 }

/-- The store holding `alice` and `bob`. -/
def twoMatchStore : Store := { creators := [alice, bob], nextId := 3, writes := 0 }

/-- The store holding only `carol`. -/
def carolStore : Store := { creators := [carol], nextId := 2, writes := 0 }

/-- The row `carol` becomes after the C10 witness scenario: provider switched
to `paradox`, Minecraft link wiped. -/
def carolAfter : Creator :=
  { carol with creatorIdProvider := Provider.paradox, minecraftPlayerUuid := none }

/-- The store holding only `slugCreator`. -/
def slugStore : Store := { creators := [slugCreator], nextId := 2, writes := 0 }

/-- The empty store. -/
def emptyStore : Store := { creators := [], nextId := 1, writes := 0 }

/-- A mod authorization for the `paradox` provider. -/
def mkParadoxAuth (creatorId : String) (creatorName : Option String)
    (hwid ip : String) : ModCreatorAuthorization :=
  { creatorName := creatorName, creatorId := creatorId,
    creatorIdProvider := Provider.paradox, hwid := hwid, ip := ip,
    minecraftAccessToken := none, minecraftPlayerUuid := none }

/-- A request by `alice` that changes nothing. -/
def aliceAuth : ModCreatorAuthorization := mkParadoxAuth uidA (some "Alice") "h1" "i1"

/-- A request claiming the name `Alice` while presenting `uidB`. -/
def claimAliceAuth : ModCreatorAuthorization := mkParadoxAuth uidB (some "Alice") "h2" "i2"

/-- A request by `carol`'s owner under the `paradox` provider. -/
def c10Auth : ModCreatorAuthorization := mkParadoxAuth uidA (some "Carol") "h1" "i1"

/-- A 26-character display name (24 internal spaces) whose slug is `a-b`. -/
def c1LongName : String := "a                        b"

/-- A claim presenting `c1LongName` and the external ID `uidB`. -/
def c1LongAuth : ModCreatorAuthorization := mkParadoxAuth uidB (some c1LongName) "h9" "i9"

/-- A fresh-account request with no existing match. -/
def danaAuth : ModCreatorAuthorization := mkParadoxAuth uidB (some "Dana") "h3" "i3"

/-- The attempt stream observed by the loser of the §4.6 creation race: the
first invocation hits the winner's freshly inserted row as a `P2002`
uniqueness violation, the second re-resolves against a store that now holds
the winner's row. -/
def raceAttempts : Nat → Store × Except CreatorErr Creator :=
  fun n =>
    if n == 0 then (emptyStore, .error .prismaUniqueViolation)
    else authenticateCreatorForModUnsafe noVerify aliceStore aliceAuth

/-! ### Character-level toolbox -/

theorem char_eq_iff_toNat (c d : Char) : c = d ↔ c.toNat = d.toNat := by
  constructor
  · intro h; rw [h]
  · intro h
    have hv : c.val = d.val := UInt32.ext h
    cases c; cases d
    simp_all

theorem char_toNat_ofNat (n : Nat) (h : n < 255) : (Char.ofNat n).toNat = n := by
  unfold Char.ofNat
  split
  · simp [Char.toNat, Char.ofNatAux, UInt32.toNat]
  · rename_i hv
    exact absurd (Or.inl (by omega)) hv

theorem char_le_toNat {c d : Char} (h : c ≤ d) : c.toNat ≤ d.toNat := h

theorem char_le_of_toNat {c d : Char} (h : c.toNat ≤ d.toNat) : c ≤ d := h

theorem upper_range (c : Char) (h : ('A' ≤ c && c ≤ 'Z') = true) :
    65 ≤ c.toNat ∧ c.toNat ≤ 90 := by
  simp only [Bool.and_eq_true, decide_eq_true_eq] at h
  exact ⟨char_le_toNat h.1, char_le_toNat h.2⟩

theorem jsToLower_eq_self (c : Char) (h : ¬ ('A' ≤ c && c ≤ 'Z') = true) :
    jsToLower c = c := by
  unfold jsToLower
  rw [if_neg h]

theorem jsToLower_eq_or_range (c : Char) :
    jsToLower c = c ∨ (97 ≤ (jsToLower c).toNat ∧ (jsToLower c).toNat ≤ 122) := by
  by_cases h : ('A' ≤ c && c ≤ 'Z') = true
  · right
    have hr := upper_range c h
    unfold jsToLower
    rw [if_pos h, char_toNat_ofNat _ (by omega)]
    omega
  · exact Or.inl (jsToLower_eq_self c h)

theorem jsToLower_eq_target {c t : Char} (ht : t.toNat < 97 ∨ 122 < t.toNat)
    (h : jsToLower c = t) : c = t := by
  rcases jsToLower_eq_or_range c with he | hr
  · rw [← he, h]
  · rw [h] at hr
    omega

theorem jsToLower_idem (c : Char) : jsToLower (jsToLower c) = jsToLower c := by
  rcases jsToLower_eq_or_range c with he | hr
  · rw [he, he]
  · apply jsToLower_eq_self
    intro hc
    have hu := upper_range _ hc
    omega

theorem jsWhitespace_false_of_range (c : Char) (h1 : 33 ≤ c.toNat) (h2 : c.toNat ≤ 159) :
    jsWhitespace c = false := by
  unfold jsWhitespace
  have k : ∀ d : Char, d.toNat < 33 ∨ 159 < d.toNat → (c == d) = false := by
    intro d hd
    apply beq_eq_false_iff_ne.mpr
    intro he
    rw [char_eq_iff_toNat] at he
    omega
  rw [k, k, k, k, k, k, k, k, k, k] <;> simp

theorem jsWhitespace_jsToLower (c : Char) :
    jsWhitespace (jsToLower c) = jsWhitespace c := by
  rcases jsToLower_eq_or_range c with he | hr
  · rw [he]
  · rw [jsWhitespace_false_of_range _ (by omega) (by omega)]
    by_cases h : ('A' ≤ c && c ≤ 'Z') = true
    · have hu := upper_range c h
      rw [eq_comm]
      apply jsWhitespace_false_of_range <;> omega
    · have he := jsToLower_eq_self c h
      rw [he] at hr
      rw [eq_comm]
      apply jsWhitespace_false_of_range <;> omega

/-! ### List-level toolbox -/

theorem dedupKeepFirst_nodup (l : List String) : (dedupKeepFirst l).Nodup := by
  induction l with
  | nil => simp [dedupKeepFirst]
  | cons x xs ih =>
    rw [dedupKeepFirst, List.nodup_cons]
    refine ⟨?_, List.Nodup.filter _ ih⟩
    intro hmem
    have := List.of_mem_filter hmem
    simp at this

theorem dedupKeepFirst_eq_self {l : List String} (h : l.Nodup) : dedupKeepFirst l = l := by
  induction l with
  | nil => rfl
  | cons x xs ih =>
    rw [List.nodup_cons] at h
    rw [dedupKeepFirst, ih h.2]
    congr 1
    apply List.filter_eq_self.mpr
    intro y hy
    simp only [decide_eq_true_eq]
    intro he
    exact h.1 (he ▸ hy)

theorem mergeMru3_head (h : List String) (v : String) : (mergeMru3 h v).head? = some v := by
  rw [mergeMru3, dedupKeepFirst, List.take_succ_cons, List.head?_cons]

theorem mergeMru3_length (h : List String) (v : String) : (mergeMru3 h v).length ≤ 3 := by
  rw [mergeMru3]
  apply List.length_take_le

theorem mergeMru3_nodup (h : List String) (v : String) : (mergeMru3 h v).Nodup := by
  rw [mergeMru3]
  exact (List.take_sublist _ _).nodup (dedupKeepFirst_nodup _)

theorem mergeMru3_eq_spec (h : List String) (v : String) (hn : h.Nodup) :
    mergeMru3 h v = (v :: h.filter (fun x => x ≠ v)).take 3 := by
  rw [mergeMru3, dedupKeepFirst, dedupKeepFirst_eq_self hn]

theorem mergeMru3_self_head (h : List String) (v : String) (hn : h.Nodup)
    (hl : h.length ≤ 3) (hh : h.head? = some v) : mergeMru3 h v = h := by
  cases h with
  | nil => simp at hh
  | cons a t =>
    have ha : a = v := by simpa using hh
    rw [List.nodup_cons] at hn
    rw [mergeMru3_eq_spec _ _ (List.nodup_cons.mpr hn), List.filter_cons, ha]
    have h1 : (decide (v ≠ v)) = false := by simp
    rw [h1]
    simp only [Bool.false_eq_true, if_false]
    rw [List.filter_eq_self.mpr]
    · rw [← ha]
      exact List.take_of_length_le hl
    · intro y hy
      simp only [decide_eq_true_eq]
      intro he
      rw [← ha] at he
      exact hn.1 (he ▸ hy)

theorem head?_dropWhile_not (p : Char → Bool) (l : List Char) {x : Char}
    (h : (l.dropWhile p).head? = some x) : p x = false := by
  induction l with
  | nil => simp [List.dropWhile] at h
  | cons a as ih =>
    rw [List.dropWhile_cons] at h
    split at h
    · exact ih h
    · rename_i hp
      rw [List.head?_cons, Option.some_inj] at h
      subst h
      exact Bool.eq_false_iff.mpr hp

theorem getLast?_dropWhile (p : Char → Bool) (l : List Char)
    (h : l.dropWhile p ≠ []) : (l.dropWhile p).getLast? = l.getLast? := by
  induction l with
  | nil => simp [List.dropWhile] at h
  | cons a as ih =>
    rw [List.dropWhile_cons]
    rw [List.dropWhile_cons] at h
    split
    · rename_i hp
      rw [if_pos hp] at h
      have hne : as ≠ [] := by
        intro he
        rw [he] at h
        simp [List.dropWhile] at h
      rw [ih h]
      cases as with
      | nil => exact absurd rfl hne
      | cons b bs => rw [List.getLast?_cons_cons]
    · rfl

theorem trimHyphens_head (l : List Char) {x : Char}
    (h : (trimHyphens l).head? = some x) : (x == '-') = false := by
  rw [trimHyphens, List.head?_reverse] at h
  by_cases hm : (l.dropWhile (fun c => c == '-')).reverse.dropWhile (fun c => c == '-') = []
  · rw [hm] at h
    simp at h
  · rw [getLast?_dropWhile _ _ hm, List.getLast?_reverse] at h
    exact head?_dropWhile_not (fun c => c == '-') _ h

theorem trimHyphens_getLast (l : List Char) {x : Char}
    (h : (trimHyphens l).getLast? = some x) : (x == '-') = false := by
  rw [trimHyphens, List.getLast?_reverse] at h
  exact head?_dropWhile_not (fun c => c == '-') _ h

theorem trimHyphens_subset (l : List Char) : ∀ c ∈ trimHyphens l, c ∈ l := by
  intro c hc
  rw [trimHyphens, List.mem_reverse] at hc
  have h1 := (List.dropWhile_sublist (fun c => c == '-')).subset hc
  rw [List.mem_reverse] at h1
  exact (List.dropWhile_sublist (fun c => c == '-')).subset h1

theorem stripMojibakeSeq_subset {c : Char} : ∀ {l : List Char}, c ∈ stripMojibakeSeq l → c ∈ l := by
  intro l
  induction l using stripMojibakeSeq.induct with
  | case1 c1 c2 c3 tail hcond ih =>
    intro h
    rw [stripMojibakeSeq, if_pos hcond] at h
    exact List.mem_cons_of_mem _ (List.mem_cons_of_mem _ (List.mem_cons_of_mem _ (ih h)))
  | case2 c1 c2 c3 tail hcond ih =>
    intro h
    rw [stripMojibakeSeq, if_neg hcond] at h
    rcases List.mem_cons.mp h with h | h
    · exact h ▸ List.mem_cons_self _ _
    · exact List.mem_cons_of_mem _ (ih h)
  | case3 c1 rest hshort ih =>
    intro h
    have hred : stripMojibakeSeq (c1 :: rest) = c1 :: stripMojibakeSeq rest := by
      cases rest with
      | nil => rfl
      | cons c2 rest2 =>
        cases rest2 with
        | nil => rfl
        | cons c3 tail => exact absurd rfl (hshort c2 c3 tail)
    rw [hred] at h
    rcases List.mem_cons.mp h with h | h
    · exact h ▸ List.mem_cons_self _ _
    · exact List.mem_cons_of_mem _ (ih h)
  | case4 =>
    intro h
    rw [stripMojibakeSeq] at h
    exact absurd h (List.not_mem_nil c)

theorem stripApostrophes_no_apostrophe (l : List Char) :
    apostrophe ∉ stripApostrophes l := by
  intro h
  have h2 : apostrophe ∈ l.filter (fun c => !(c == apostrophe)) :=
    stripMojibakeSeq_subset h
  exact absurd (List.of_mem_filter h2) (by decide)

theorem collapseSpaceHyphenRuns_mem {l : List Char} {c : Char}
    (h : c ∈ collapseSpaceHyphenRuns l) :
    c = '-' ∨ (c ∈ l ∧ jsWhitespace c = false ∧ (c == '-') = false) := by
  induction l with
  | nil => simp [collapseSpaceHyphenRuns] at h
  | cons a rest ih =>
    have lift :
        c = '-' ∨ (c ∈ rest ∧ jsWhitespace c = false ∧ (c == '-') = false) →
        c = '-' ∨ (c ∈ a :: rest ∧ jsWhitespace c = false ∧ (c == '-') = false) := by
      intro h1
      rcases h1 with h1 | h1
      · exact Or.inl h1
      · exact Or.inr ⟨List.mem_cons_of_mem _ h1.1, h1.2⟩
    cases rest with
    | nil =>
      rw [collapseSpaceHyphenRuns] at h
      by_cases ha : (jsWhitespace a || a == '-') = true
      · rw [if_pos ha] at h
        rw [List.mem_singleton] at h
        exact Or.inl h
      · rw [if_neg ha] at h
        rw [List.mem_singleton] at h
        subst h
        rw [Bool.or_eq_true] at ha
        push_neg at ha
        refine Or.inr ⟨List.mem_cons_self _ _, ?_, ?_⟩
        · exact Bool.eq_false_iff.mpr ha.1
        · exact Bool.eq_false_iff.mpr ha.2
    | cons d cs =>
      rw [collapseSpaceHyphenRuns] at h
      by_cases hws : jsWhitespace a = true
      · rw [if_pos hws] at h
        by_cases hd : jsWhitespace d = true
        · rw [if_pos hd] at h
          exact lift (ih h)
        · rw [if_neg hd, List.mem_cons] at h
          rcases h with h | h
          · exact Or.inl h
          · exact lift (ih h)
      · rw [if_neg hws] at h
        by_cases hhy : (a == '-') = true
        · rw [if_pos hhy] at h
          by_cases hd : (d == '-') = true
          · rw [if_pos hd] at h
            exact lift (ih h)
          · rw [if_neg hd, List.mem_cons] at h
            rcases h with h | h
            · exact Or.inl h
            · exact lift (ih h)
        · rw [if_neg hhy, List.mem_cons] at h
          rcases h with h | h
          · subst h
            exact Or.inr ⟨List.mem_cons_self _ _,
              Bool.eq_false_iff.mpr hws, Bool.eq_false_iff.mpr hhy⟩
          · exact lift (ih h)

theorem mergeMru3_singleton (v : String) : mergeMru3 [v] v = [v] := by
  rw [mergeMru3, dedupKeepFirst, dedupKeepFirst, dedupKeepFirst]
  simp

/-! ### UUID toolbox -/

theorem isHexLower_iff (c : Char) : isHexLower c = true ↔
    (48 ≤ c.toNat ∧ c.toNat ≤ 57) ∨ (97 ≤ c.toNat ∧ c.toNat ≤ 102) := by
  unfold isHexLower
  simp only [Bool.or_eq_true, Bool.and_eq_true, decide_eq_true_eq]
  have h0 : ('0' : Char).toNat = 48 := by decide
  have h9 : ('9' : Char).toNat = 57 := by decide
  have ha : ('a' : Char).toNat = 97 := by decide
  have hf : ('f' : Char).toNat = 102 := by decide
  constructor
  · rintro (⟨h1, h2⟩ | ⟨h1, h2⟩)
    · left
      exact ⟨by have := char_le_toNat h1; omega, by have := char_le_toNat h2; omega⟩
    · right
      exact ⟨by have := char_le_toNat h1; omega, by have := char_le_toNat h2; omega⟩
  · rintro (⟨h1, h2⟩ | ⟨h1, h2⟩)
    · exact Or.inl ⟨char_le_of_toNat (by omega), char_le_of_toNat (by omega)⟩
    · exact Or.inr ⟨char_le_of_toNat (by omega), char_le_of_toNat (by omega)⟩

theorem isHexDigit_iff (c : Char) : isHexDigit c = true ↔
    (48 ≤ c.toNat ∧ c.toNat ≤ 57) ∨ (97 ≤ c.toNat ∧ c.toNat ≤ 102) ∨
    (65 ≤ c.toNat ∧ c.toNat ≤ 70) := by
  unfold isHexDigit
  simp only [Bool.or_eq_true, Bool.and_eq_true, decide_eq_true_eq]
  have h0 : ('0' : Char).toNat = 48 := by decide
  have h9 : ('9' : Char).toNat = 57 := by decide
  have ha : ('a' : Char).toNat = 97 := by decide
  have hf : ('f' : Char).toNat = 102 := by decide
  have hA : ('A' : Char).toNat = 65 := by decide
  have hF : ('F' : Char).toNat = 70 := by decide
  constructor
  · rintro ((⟨h1, h2⟩ | ⟨h1, h2⟩) | ⟨h1, h2⟩)
    · exact Or.inl ⟨by have := char_le_toNat h1; omega, by have := char_le_toNat h2; omega⟩
    · exact Or.inr (Or.inl
        ⟨by have := char_le_toNat h1; omega, by have := char_le_toNat h2; omega⟩)
    · exact Or.inr (Or.inr
        ⟨by have := char_le_toNat h1; omega, by have := char_le_toNat h2; omega⟩)
  · rintro (⟨h1, h2⟩ | ⟨h1, h2⟩ | ⟨h1, h2⟩)
    · exact Or.inl (Or.inl ⟨char_le_of_toNat (by omega), char_le_of_toNat (by omega)⟩)
    · exact Or.inl (Or.inr ⟨char_le_of_toNat (by omega), char_le_of_toNat (by omega)⟩)
    · exact Or.inr ⟨char_le_of_toNat (by omega), char_le_of_toNat (by omega)⟩

theorem isHexLower_jsToLower (c : Char) : isHexLower (jsToLower c) = isHexDigit c := by
  have hiff : ∀ a b : Bool, (a = true ↔ b = true) → a = b := by decide
  apply hiff
  rw [isHexLower_iff, isHexDigit_iff]
  by_cases h : ('A' ≤ c && c ≤ 'Z') = true
  · have hr := upper_range c h
    have he : (jsToLower c).toNat = c.toNat + 32 := by
      unfold jsToLower
      rw [if_pos h, char_toNat_ofNat _ (by omega)]
    rw [he]
    omega
  · rw [jsToLower_eq_self c h]
    have hA : ('A' : Char).toNat = 65 := by decide
    have hZ : ('Z' : Char).toNat = 90 := by decide
    have hnb : ¬(65 ≤ c.toNat ∧ c.toNat ≤ 90) := by
      intro hb
      exact h (by
        simp only [Bool.and_eq_true, decide_eq_true_eq]
        exact ⟨char_le_of_toNat (by omega), char_le_of_toNat (by omega)⟩)
    omega

theorem uuidVersionOk_hexLower {c : Char} (h : uuidVersionOk c = true) :
    isHexLower c = true := by
  unfold uuidVersionOk at h
  simp only [Bool.and_eq_true, decide_eq_true_eq] at h
  have h1 : ('1' : Char).toNat = 49 := by decide
  have h8 : ('8' : Char).toNat = 56 := by decide
  have ha := char_le_toNat h.1
  have hb := char_le_toNat h.2
  rw [isHexLower_iff]
  omega

theorem uuidVariantOk_hexLower {c : Char} (h : uuidVariantOk c = true) :
    isHexLower c = true := by
  unfold uuidVariantOk at h
  simp only [Bool.or_eq_true, beq_iff_eq] at h
  rcases h with ((h | h) | h) | h <;> rw [h] <;> decide

theorem segsConcat (l : List Char) :
    l.take 8 ++ ((l.drop 8).take 4 ++ ((l.drop 12).take 4 ++ ((l.drop 16).take 4 ++ l.drop 20))) = l := by
  have e20 : (l.drop 16).take 4 ++ l.drop 20 = l.drop 16 := by
    have := List.take_append_drop 4 (l.drop 16)
    rwa [List.drop_drop] at this
  have e16 : (l.drop 12).take 4 ++ l.drop 16 = l.drop 12 := by
    have := List.take_append_drop 4 (l.drop 12)
    rwa [List.drop_drop] at this
  have e12 : (l.drop 8).take 4 ++ l.drop 12 = l.drop 8 := by
    have := List.take_append_drop 4 (l.drop 8)
    rwa [List.drop_drop] at this
  rw [e20, e16, e12, List.take_append_drop]

theorem mem_hyphenateCompact {x : Char} {l : List Char} (h : x ∈ l) :
    x ∈ hyphenateCompact l := by
  rw [hyphenateCompact]
  have h2 := segsConcat l
  rw [← h2] at h
  simp only [List.mem_append] at h ⊢
  tauto

theorem filter_hyphenateCompact (l : List Char) (h : '-' ∉ l) :
    (hyphenateCompact l).filter (fun c => !(c == '-')) = l := by
  have hseg : ∀ m : List Char, (∀ x ∈ m, x ∈ l) →
      m.filter (fun c => !(c == '-')) = m := by
    intro m hm
    apply List.filter_eq_self.mpr
    intro y hy
    simp only [Bool.not_eq_true']
    apply beq_eq_false_iff_ne.mpr
    intro he
    exact h (he ▸ hm y hy)
  rw [hyphenateCompact]
  simp only [List.filter_append]
  rw [hseg _ (fun x hx => (List.take_sublist _ _).subset hx),
    hseg _ (fun x hx => (List.drop_sublist _ _).subset ((List.take_sublist _ _).subset hx)),
    hseg _ (fun x hx => (List.drop_sublist _ _).subset ((List.take_sublist _ _).subset hx)),
    hseg _ (fun x hx => (List.drop_sublist _ _).subset ((List.take_sublist _ _).subset hx)),
    hseg _ (fun x hx => (List.drop_sublist _ _).subset hx)]
  have hh : List.filter (fun c => !(c == '-')) ['-'] = [] := rfl
  rw [hh]
  simp only [List.append_nil, List.nil_append, List.append_assoc]
  exact segsConcat l

theorem map_hyphenateCompact (f : Char → Char) (hf : f '-' = '-') (l : List Char) :
    (hyphenateCompact l).map f = hyphenateCompact (l.map f) := by
  rw [hyphenateCompact, hyphenateCompact]
  simp only [List.map_append, List.map_take, List.map_drop, List.map_cons, List.map_nil, hf]

theorem map_jsToLower_idem_list (l : List Char) :
    (l.map jsToLower).map jsToLower = l.map jsToLower := by
  rw [List.map_map]
  apply List.map_congr_left
  intro a _
  exact jsToLower_idem a

theorem uuidStdOk_all_hex {l : List Char} (h : uuidStdOk l = true) :
    ∀ x ∈ l, x = '-' ∨ isHexLower x = true := by
  unfold uuidStdOk at h
  simp only [Bool.and_eq_true, beq_iff_eq] at h
  obtain ⟨⟨⟨⟨⟨⟨⟨⟨⟨⟨⟨hlen, h1⟩, h8⟩, h2⟩, h13⟩, h14⟩, h3⟩, h18⟩, h19⟩, h4⟩, h23⟩, h5⟩ := h
  intro x hx
  obtain ⟨i, hi, hxi⟩ := List.mem_iff_getElem.mp hx
  have hseg : ∀ (off len j : Nat), i = off + j → j < len → off + len ≤ l.length →
      ((l.drop off).take len).all isHexLower = true → isHexLower x = true := by
    intro off len j hij hjlen hil hall
    subst hij
    have hb1 : j < (l.drop off).length := by
      rw [List.length_drop]
      omega
    have hb2 : j < ((l.drop off).take len).length := by
      rw [List.length_take, List.length_drop]
      omega
    have e1 : ((l.drop off).take len)[j] = (l.drop off)[j] := List.getElem_take _
    have e2 : (l.drop off)[j] = l[off + j] := List.getElem_drop _
    have hm : ((l.drop off).take len)[j] ∈ (l.drop off).take len := List.getElem_mem _
    have hh := List.all_eq_true.mp hall _ hm
    rw [e1, e2, hxi] at hh
    exact hh
  have hpos : ∀ k : Nat, i = k → k < l.length → x = l.getD k '?' := by
    intro k hik hkl
    rw [List.getD_eq_getElem _ _ hkl]
    subst hik
    exact hxi.symm
  have hl36 : l.length = 36 := hlen
  rcases (by omega :
      i < 8 ∨ i = 8 ∨ (9 ≤ i ∧ i < 13) ∨ i = 13 ∨ i = 14 ∨ (15 ≤ i ∧ i < 18) ∨
      i = 18 ∨ i = 19 ∨ (20 ≤ i ∧ i < 23) ∨ i = 23 ∨ (24 ≤ i ∧ i < 36)) with
    hr | hr | hr | hr | hr | hr | hr | hr | hr | hr | hr
  · refine Or.inr (hseg 0 8 i (by omega) (by omega) (by omega) ?_)
    rw [List.drop_zero]
    exact h1
  · exact Or.inl ((hpos 8 hr (by omega)).trans h8)
  · exact Or.inr (hseg 9 4 (i - 9) (by omega) (by omega) (by omega) h2)
  · exact Or.inl ((hpos 13 hr (by omega)).trans h13)
  · refine Or.inr (uuidVersionOk_hexLower ?_)
    rw [← hpos 14 hr (by omega)] at h14
    exact h14
  · exact Or.inr (hseg 15 3 (i - 15) (by omega) (by omega) (by omega) h3)
  · exact Or.inl ((hpos 18 hr (by omega)).trans h18)
  · refine Or.inr (uuidVariantOk_hexLower ?_)
    rw [← hpos 19 hr (by omega)] at h19
    exact h19
  · exact Or.inr (hseg 20 3 (i - 20) (by omega) (by omega) (by omega) h4)
  · exact Or.inl ((hpos 23 hr (by omega)).trans h23)
  · refine Or.inr (hseg 24 12 (i - 24) (by omega) (by omega) (by omega) ?_)
    have : l.drop 24 = (l.drop 24).take 12 := by
      rw [List.take_of_length_le]
      rw [List.length_drop]
      omega
    rw [← this]
    exact h5

/-! ### Resolver-flow toolbox -/

theorem unsafe_single_match
    (verify : String → Except MinecraftAuthErr MinecraftOfficialProfile)
    (st : Store) (auth : ModCreatorAuthorization)
    (effId : String) (effName effMc : Option String) (c : Creator)
    (hEff : modEffective verify auth = .ok (effId, effName, effMc))
    (hId : isUuidV4 effId = true)
    (hQ : runModQuery st
      (modSearchConditions effId effName (getCreatorNameSlug effName) effMc) = [c]) :
    authenticateCreatorForModUnsafe verify st auth =
      updateCreator st c (mkContext auth effId effName effMc) := by
  rw [authenticateCreatorForModUnsafe, hEff]
  dsimp only
  rw [if_neg (by rw [hId]; decide), hQ]
  rfl

theorem unsafe_no_match
    (verify : String → Except MinecraftAuthErr MinecraftOfficialProfile)
    (st : Store) (auth : ModCreatorAuthorization)
    (effId : String) (effName effMc : Option String)
    (hEff : modEffective verify auth = .ok (effId, effName, effMc))
    (hId : isUuidV4 effId = true)
    (hQ : runModQuery st
      (modSearchConditions effId effName (getCreatorNameSlug effName) effMc) = []) :
    authenticateCreatorForModUnsafe verify st auth =
      createCreator st (mkContext auth effId effName effMc) := by
  rw [authenticateCreatorForModUnsafe, hEff]
  dsimp only
  rw [if_neg (by rw [hId]; decide), hQ]
  rfl

theorem updateCreator_reject (st : Store) (c : Creator) (ctx : CreatorContext)
    (n : String)
    (hMis : c.creatorId ≠ ctx.effectiveCreatorId)
    (hReset : c.allowCreatorIdReset = false)
    (hUuid : ¬(isTruthy ctx.effectiveMinecraftPlayerUuid = true ∧
        c.minecraftPlayerUuid = ctx.effectiveMinecraftPlayerUuid))
    (hName : c.creatorName = some n) (hn : n ≠ "") :
    updateCreator st c ctx = (st, .error (.incorrectCreatorId n)) := by
  rw [updateCreator]
  dsimp only
  rw [if_pos ?hcond]
  case hcond =>
    simp only [Bool.and_eq_true, bne_iff_ne, ne_eq, Bool.not_eq_true']
    refine ⟨⟨hMis, hReset⟩, ?_⟩
    cases h1 : isTruthy ctx.effectiveMinecraftPlayerUuid
    · simp
    · cases h2 : (c.minecraftPlayerUuid == ctx.effectiveMinecraftPlayerUuid)
      · simp
      · exact absurd ⟨h1, beq_iff_eq.mp h2⟩ hUuid
  rw [hName]
  dsimp only
  rw [if_neg (by simp only [beq_iff_eq]; exact hn)]

theorem updateCreator_pass (st : Store) (c : Creator) (ctx : CreatorContext)
    (hOwn : c.creatorId = ctx.effectiveCreatorId ∨ c.allowCreatorIdReset = true ∨
      (isTruthy ctx.effectiveMinecraftPlayerUuid = true ∧
        c.minecraftPlayerUuid = ctx.effectiveMinecraftPlayerUuid)) :
    updateCreator st c ctx =
      (let modified :=
        (c.creatorName != ctx.effectiveCreatorName) ||
        (c.creatorNameSlug != ctx.creatorNameSlug) ||
        (c.hwids.head? != some ctx.hwid) ||
        (c.ips.head? != some ctx.ip) ||
        (c.creatorId != ctx.effectiveCreatorId) ||
        (c.minecraftPlayerUuid != ctx.effectiveMinecraftPlayerUuid) ||
        (c.creatorIdProvider != ctx.creatorIdProvider)
      if !modified then (st, .ok c)
      else
        match
          (if c.creatorName == ctx.effectiveCreatorName then
            Except.ok ctx.effectiveCreatorName
          else validateCreatorName ctx.effectiveCreatorName) with
        | .error e => (st, .error e)
        | .ok newName =>
          (storeUpdate st c.id (updatedRow c ctx newName),
           .ok (updatedRow c ctx newName))) := by
  rw [updateCreator]
  dsimp only
  rw [if_neg ?hcond]
  case hcond =>
    simp only [Bool.and_eq_true, bne_iff_ne, ne_eq, Bool.not_eq_true', not_and]
    intro h1 h2
    rcases hOwn with h | h | h
    · exact h1.1 h
    · rw [h1.2] at h
      cases h
    · have hb : (c.minecraftPlayerUuid == ctx.effectiveMinecraftPlayerUuid) = true :=
        beq_iff_eq.mpr h.2
      rw [h.1, hb] at h2
      cases h2

theorem updateCreator_noop (st : Store) (c : Creator) (ctx : CreatorContext)
    (hOwn : c.creatorId = ctx.effectiveCreatorId)
    (h1 : c.creatorName = ctx.effectiveCreatorName)
    (h2 : c.creatorNameSlug = ctx.creatorNameSlug)
    (h3 : c.hwids.head? = some ctx.hwid)
    (h4 : c.ips.head? = some ctx.ip)
    (h5 : c.minecraftPlayerUuid = ctx.effectiveMinecraftPlayerUuid)
    (h6 : c.creatorIdProvider = ctx.creatorIdProvider) :
    updateCreator st c ctx = (st, .ok c) := by
  rw [updateCreator_pass st c ctx (Or.inl hOwn)]
  dsimp only
  rw [if_pos (by simp [h1, h2, h3, h4, h5, h6, hOwn])]

theorem updateCreator_write (st : Store) (c : Creator) (ctx : CreatorContext)
    (newName : Option String)
    (hOwn : c.creatorId = ctx.effectiveCreatorId ∨ c.allowCreatorIdReset = true ∨
      (isTruthy ctx.effectiveMinecraftPlayerUuid = true ∧
        c.minecraftPlayerUuid = ctx.effectiveMinecraftPlayerUuid))
    (hMod : c.creatorId ≠ ctx.effectiveCreatorId ∨
      c.minecraftPlayerUuid ≠ ctx.effectiveMinecraftPlayerUuid ∨
      c.creatorName ≠ ctx.effectiveCreatorName)
    (hVal : (if c.creatorName == ctx.effectiveCreatorName then
        Except.ok ctx.effectiveCreatorName
      else validateCreatorName ctx.effectiveCreatorName) = .ok newName) :
    updateCreator st c ctx =
      (storeUpdate st c.id (updatedRow c ctx newName),
       .ok (updatedRow c ctx newName)) := by
  rw [updateCreator_pass st c ctx hOwn]
  dsimp only
  rw [if_neg ?hmod]
  case hmod =>
    simp only [Bool.not_eq_true', Bool.not_eq_false]
    rcases hMod with h | h | h <;> simp [bne_iff_ne, h]
  rw [hVal]

theorem createCreator_ok (st : Store) (ctx : CreatorContext) (vn : Option String)
    (hVal : validateCreatorName ctx.effectiveCreatorName = .ok vn)
    (hUnique : st.creators.any (fun c => c.creatorId == ctx.effectiveCreatorId) = false) :
    createCreator st ctx =
      ({ creators := st.creators ++ [createdRow st ctx vn]
         nextId := st.nextId + 1
         writes := st.writes + 1 }, .ok (createdRow st ctx vn)) := by
  rw [createCreator, hVal]
  dsimp only
  rw [if_neg (by rw [hUnique]; decide)]

theorem unsafe_two_match_reject
    (verify : String → Except MinecraftAuthErr MinecraftOfficialProfile)
    (st : Store) (auth : ModCreatorAuthorization)
    (effId : String) (effName effMc : Option String) (n : String)
    (hEff : modEffective verify auth = .ok (effId, effName, effMc))
    (hId : isUuidV4 effId = true)
    (hName : effName = some n) (hn : n ≠ "")
    (hLen : (runModQuery st (modSearchConditions effId effName
       (getCreatorNameSlug effName) effMc)).length = 2) :
    authenticateCreatorForModUnsafe verify st auth =
      (st, .error (.incorrectCreatorId n)) := by
  rw [authenticateCreatorForModUnsafe, hEff]
  dsimp only
  rw [if_neg (by rw [hId]; decide), hLen]
  rw [if_pos (by omega), if_neg (by decide), hName]
  dsimp only
  rw [if_neg (by simp only [beq_iff_eq]; exact hn)]

theorem unsafe_over_match
    (verify : String → Except MinecraftAuthErr MinecraftOfficialProfile)
    (st : Store) (auth : ModCreatorAuthorization)
    (effId : String) (effName effMc : Option String)
    (hEff : modEffective verify auth = .ok (effId, effName, effMc))
    (hId : isUuidV4 effId = true)
    (hLen : (runModQuery st (modSearchConditions effId effName
       (getCreatorNameSlug effName) effMc)).length > 2) :
    authenticateCreatorForModUnsafe verify st auth =
      (st, .error (.assertionFailed assertMsgTwo)) := by
  rw [authenticateCreatorForModUnsafe, hEff]
  dsimp only
  rw [if_neg (by rw [hId]; decide)]
  rw [if_pos (by omega : (runModQuery st (modSearchConditions effId effName
    (getCreatorNameSlug effName) effMc)).length > 1)]
  rw [if_pos]
  simp only [Bool.not_eq_true', beq_eq_false_iff_ne, ne_eq]
  omega

theorem unsafe_two_match_falsy_name
    (verify : String → Except MinecraftAuthErr MinecraftOfficialProfile)
    (st : Store) (auth : ModCreatorAuthorization)
    (effId : String) (effName effMc : Option String)
    (hEff : modEffective verify auth = .ok (effId, effName, effMc))
    (hId : isUuidV4 effId = true)
    (hFalsy : isTruthy effName = false)
    (hLen : (runModQuery st (modSearchConditions effId effName
       (getCreatorNameSlug effName) effMc)).length = 2) :
    authenticateCreatorForModUnsafe verify st auth =
      (st, .error (.assertionFailed assertMsgName)) := by
  rw [authenticateCreatorForModUnsafe, hEff]
  dsimp only
  rw [if_neg (by rw [hId]; decide), hLen]
  rw [if_pos (by omega), if_neg (by decide)]
  cases hne : effName with
  | none => rfl
  | some n =>
    rw [hne] at hFalsy
    rw [isTruthy] at hFalsy
    dsimp only
    rw [if_pos (by
      cases hb : (n == "")
      · rw [hb] at hFalsy
        cases hFalsy
      · rfl)]

theorem unsafe_mismatch_reject
    (verify : String → Except MinecraftAuthErr MinecraftOfficialProfile)
    (st : Store) (auth : ModCreatorAuthorization)
    (effId : String) (effName effMc : Option String) (c : Creator) (n : String)
    (hEff : modEffective verify auth = .ok (effId, effName, effMc))
    (hId : isUuidV4 effId = true)
    (hQ : runModQuery st (modSearchConditions effId effName
       (getCreatorNameSlug effName) effMc) = [c])
    (hMis : c.creatorId ≠ effId)
    (hReset : c.allowCreatorIdReset = false)
    (hUuid : ¬(isTruthy effMc = true ∧ c.minecraftPlayerUuid = effMc))
    (hName : c.creatorName = some n) (hn : n ≠ "") :
    authenticateCreatorForModUnsafe verify st auth =
      (st, .error (.incorrectCreatorId n)) := by
  rw [unsafe_single_match verify st auth effId effName effMc c hEff hId hQ]
  exact updateCreator_reject st c _ n hMis hReset hUuid hName hn

/-! ### Claim theorems -/

/-- C6: `validateCreatorName` (the spec's `normalizeDisplayName`) does *not*
trim leading/trailing whitespace — `" a "` is returned as `" a "`, not `"a"` —
and the 25-character bound is checked on the raw string *before* whitespace
normalization: a 26-character raw name that would be 25 characters after
collapsing its double space is rejected. This contradicts the function's own
documentation ("Trims start, end and consecutive spaces ..."), so the code,
not the claim, is at fault. -/
theorem c6_validateCreatorName_code_bug :
    validateCreatorName (some " a ") = .ok (some " a ") ∧
    (some " a " : Option String) ≠ some "a" ∧
    validateCreatorName (some "aaaaaaaaaaaa  aaaaaaaaaaaa") =
      .error (.invalidCreatorName "aaaaaaaaaaaa  aaaaaaaaaaaa") ∧
    "aaaaaaaaaaaa  aaaaaaaaaaaa".toList.length = 26 ∧
    (collapseWhitespace "aaaaaaaaaaaa  aaaaaaaaaaaa".toList).length = 25 :=
  ⟨rfl, by decide, rfl, rfl, rfl⟩

/-- C8 counterexample: two clauses of the claim fail on the code. First,
"collapses every run of whitespace and/or hyphens to a single hyphen" fails
on a mixed run — in `"a - b"` the whitespace–hyphen–whitespace run becomes
three hyphens, one per homogeneous sub-run, not one. Second, "strips
apostrophe variants" fails for the genuine right single quotation mark
`’` (U+2019): the source's second `replaceAll` literal is the mojibake
sequence U+00E2 U+20AC U+2122, so `O’Brien` keeps its `’` and slugs to
`o’brien`, not `obrien`. -/
theorem c8_slugify_counterexample :
    getCreatorNameSlug (some "a - b") = some "a---b" ∧
    (some "a---b" : Option String) ≠ some "a-b" ∧
    getCreatorNameSlug (some (String.mk ['O', rightQuote, 'B', 'r', 'i', 'e', 'n'])) =
      some (String.mk ['o', rightQuote, 'b', 'r', 'i', 'e', 'n']) ∧
    (some (String.mk ['o', rightQuote, 'b', 'r', 'i', 'e', 'n']) : Option String) ≠
      some "obrien" :=
  ⟨rfl, by decide, rfl, by decide⟩

/-- C8 (amended): `getCreatorNameSlug` strips the ASCII apostrophe and the
literal mojibake sequence U+00E2 U+20AC U+2122 (it does *not* strip a genuine
right single quotation mark), collapses every homogeneous run of whitespace
and every homogeneous run of hyphens to a single hyphen (a mixed run yields
one hyphen per homogeneous sub-run), trims leading and trailing hyphens, and
lower-cases; `null` or blank input yields `null`; `slugify("O'Brien  Town")`
is the single lower-case hyphen-joined token `"obrien-town"`. -/
theorem c8_slugify_amended :
    getCreatorNameSlug none = none ∧
    getCreatorNameSlug (some "") = none ∧
    getCreatorNameSlug (some "  ") = none ∧
    getCreatorNameSlug (some "O'Brien  Town") = some "obrien-town" ∧
    getCreatorNameSlug
      (some (String.mk ['O', mojibake1, mojibake2, mojibake3, 'B', 'r', 'i', 'e', 'n'])) =
      some "obrien" ∧
    (∀ s t, getCreatorNameSlug (some s) = some t →
      (∀ c ∈ t.toList,
        c ≠ apostrophe ∧ jsWhitespace c = false ∧ jsToLower c = c) ∧
      t.toList.head? ≠ some '-' ∧ t.toList.getLast? ≠ some '-') := by
  refine ⟨rfl, rfl, rfl, rfl, rfl, ?_⟩
  intro s t h
  rw [getCreatorNameSlug] at h
  split at h
  · exact absurd h (by simp)
  · rw [Option.some_inj] at h
    have ht : t.toList =
        (trimHyphens (collapseSpaceHyphenRuns (stripApostrophes s.toList))).map jsToLower := by
      rw [← h]
      rfl
    refine ⟨?_, ?_, ?_⟩
    · intro c hc
      rw [ht, List.mem_map] at hc
      obtain ⟨d, hd, hdc⟩ := hc
      have hdmem := trimHyphens_subset _ _ hd
      have hsrc := collapseSpaceHyphenRuns_mem hdmem
      refine ⟨?_, ?_, ?_⟩
      · intro he
        rw [he] at hdc
        have : d = apostrophe := jsToLower_eq_target (by decide) hdc
        subst this
        rcases hsrc with h1 | h1
        · exact absurd h1 (by decide)
        · exact stripApostrophes_no_apostrophe _ h1.1
      · rw [← hdc, jsWhitespace_jsToLower]
        rcases hsrc with h1 | h1
        · rw [h1]; decide
        · exact h1.2.1
      · rw [← hdc, jsToLower_idem]
    · rw [ht, List.head?_map]
      intro he
      cases hh : (trimHyphens (collapseSpaceHyphenRuns (stripApostrophes s.toList))).head? with
      | none => rw [hh] at he; simp at he
      | some x =>
        rw [hh] at he
        rw [Option.map_some', Option.some_inj] at he
        have hx : x = '-' := jsToLower_eq_target (by decide) he
        have := trimHyphens_head _ hh
        rw [hx] at this
        simp at this
    · rw [ht, List.getLast?_map]
      intro he
      cases hh : (trimHyphens (collapseSpaceHyphenRuns (stripApostrophes s.toList))).getLast? with
      | none => rw [hh] at he; simp at he
      | some x =>
        rw [hh] at he
        rw [Option.map_some', Option.some_inj] at he
        have hx : x = '-' := jsToLower_eq_target (by decide) he
        have := trimHyphens_getLast _ hh
        rw [hx] at this
        simp at this

/-- Witness for C8: the amended theorem applied at `"O'Brien  Town"` and at
the mojibake-bearing name. -/
theorem c8_slugify_amended_witness :
    getCreatorNameSlug (some "O'Brien  Town") = some "obrien-town" ∧
    getCreatorNameSlug
      (some (String.mk ['O', mojibake1, mojibake2, mojibake3, 'B', 'r', 'i', 'e', 'n'])) =
      some "obrien" ∧
    "obrien-town".toList.head? ≠ some '-' ∧
    "obrien-town".toList.getLast? ≠ some '-' := by
  refine ⟨c8_slugify_amended.2.2.2.1, c8_slugify_amended.2.2.2.2.1, ?_, ?_⟩
  · exact (c8_slugify_amended.2.2.2.2.2 "O'Brien  Town" "obrien-town"
      c8_slugify_amended.2.2.2.1).2.1
  · exact (c8_slugify_amended.2.2.2.2.2 "O'Brien  Town" "obrien-town"
      c8_slugify_amended.2.2.2.1).2.2

theorem string_toList_mk (l : List Char) : (String.mk l).toList = l := rfl

theorem filter_eq_self_of_no_hyphen {l : List Char} (h : '-' ∉ l) :
    l.filter (fun c => !(c == '-')) = l := by
  apply List.filter_eq_self.mpr
  intro y hy
  simp only [Bool.not_eq_true']
  apply beq_eq_false_iff_ne.mpr
  intro he
  exact h (he ▸ hy)

/-- C7: `normalizeUuid` accepts the bare and the canonically hyphenated form of
the same 32-character compact over identical canonical output (when that
canonical output validates); every success is a validating, lower-case,
`8-4-4-4-12`-hyphenated UUID; and every input whose hyphen-stripped form is not
exactly 32 hexadecimal characters fails with `InvalidUuid`. -/
theorem c7_normalizeUuid :
    (∀ c : String, c.toList.length = 32 → '-' ∉ c.toList →
       uuidValidate (String.mk (hyphenateCompact (c.toList.map jsToLower))) = true →
       normalizeUuid c = .ok (String.mk (hyphenateCompact (c.toList.map jsToLower))) ∧
       normalizeUuid (String.mk (hyphenateCompact c.toList)) =
         .ok (String.mk (hyphenateCompact (c.toList.map jsToLower)))) ∧
    (∀ s u, normalizeUuid s = .ok u →
       uuidValidate u = true ∧ u.toList.map jsToLower = u.toList ∧
       ∃ a b cc d e, u.toList = a ++ ['-'] ++ b ++ ['-'] ++ cc ++ ['-'] ++ d ++ ['-'] ++ e ∧
         a.length = 8 ∧ b.length = 4 ∧ cc.length = 4 ∧ d.length = 4 ∧ e.length = 12) ∧
    (∀ s : String, ¬((s.toList.filter (fun c => !(c == '-'))).length = 32 ∧
         ∀ c ∈ s.toList.filter (fun c => !(c == '-')), isHexDigit c = true) →
       normalizeUuid s = .error (.invalidUuid s)) := by
  refine ⟨?_, ?_, ?_⟩
  · intro c h32 hnh hval
    have hfp : c.toList.filter (fun c => !(c == '-')) = c.toList :=
      filter_eq_self_of_no_hyphen hnh
    constructor
    · rw [normalizeUuid, hfp]
      rw [if_neg (by rw [List.length_map, h32]; decide), if_neg (by rw [hval]; decide)]
    · rw [normalizeUuid, string_toList_mk, filter_hyphenateCompact _ hnh]
      rw [if_neg (by rw [List.length_map, h32]; decide), if_neg (by rw [hval]; decide)]
  · intro s u h
    rw [normalizeUuid] at h
    by_cases h1 : ((s.toList.filter (fun c => !(c == '-'))).map jsToLower).length = 32
    · rw [if_neg (by rw [h1]; decide)] at h
      by_cases h2 : uuidValidate (String.mk (hyphenateCompact
          ((s.toList.filter (fun c => !(c == '-'))).map jsToLower))) = true
      · rw [if_neg (by rw [h2]; decide), Except.ok.injEq] at h
        subst h
        set m := (s.toList.filter (fun c => !(c == '-'))).map jsToLower with hm
        refine ⟨h2, ?_, ?_⟩
        · rw [string_toList_mk,
            map_hyphenateCompact jsToLower (by decide), hm,
            map_jsToLower_idem_list]
        · refine ⟨m.take 8, (m.drop 8).take 4, (m.drop 12).take 4,
            (m.drop 16).take 4, m.drop 20, ?_, ?_, ?_, ?_, ?_, ?_⟩
          · rw [string_toList_mk, hyphenateCompact]
          · rw [List.length_take]
            omega
          · rw [List.length_take, List.length_drop]
            omega
          · rw [List.length_take, List.length_drop]
            omega
          · rw [List.length_take, List.length_drop]
            omega
          · rw [List.length_drop]
            omega
      · rw [if_pos (by rw [Bool.eq_false_iff.mpr h2]; decide)] at h
        exact absurd h (by simp)
    · rw [if_pos (by
        rw [Bool.not_eq_true']
        apply beq_eq_false_iff_ne.mpr
        exact h1)] at h
      · exact absurd h (by simp)
  · intro s hns
    by_cases hlen : (s.toList.filter (fun c => !(c == '-'))).length = 32
    · have hbad : ∃ c ∈ s.toList.filter (fun c => !(c == '-')), isHexDigit c = false := by
        by_contra hall
        push_neg at hall
        refine hns ⟨hlen, fun c hc => ?_⟩
        have := hall c hc
        revert this
        cases isHexDigit c <;> simp
      obtain ⟨c0, hc0mem, hc0hex⟩ := hbad
      have hc0nh : (c0 == '-') = false := by
        have := List.of_mem_filter hc0mem
        revert this
        cases hb : c0 == '-' <;> simp
      set compact := (s.toList.filter (fun c => !(c == '-'))).map jsToLower with hcompact
      have hx : jsToLower c0 ∈ compact := List.mem_map_of_mem _ hc0mem
      have hxnh : jsToLower c0 ≠ '-' := by
        intro he
        have : c0 = '-' := jsToLower_eq_target (by decide) he
        rw [this] at hc0nh
        simp at hc0nh
      have hxhex : isHexLower (jsToLower c0) = false := by
        rw [isHexLower_jsToLower]
        exact hc0hex
      have hvf : uuidValidate (String.mk (hyphenateCompact compact)) = false := by
        apply Bool.eq_false_iff.mpr
        intro htrue
        rw [uuidValidate, string_toList_mk,
          map_hyphenateCompact jsToLower (by decide)] at htrue
        rw [hcompact, map_jsToLower_idem_list, ← hcompact] at htrue
        have hxL : jsToLower c0 ∈ hyphenateCompact compact := mem_hyphenateCompact hx
        simp only [Bool.or_eq_true, beq_iff_eq] at htrue
        rcases htrue with (hstd | hnil) | hmax
        · rcases uuidStdOk_all_hex hstd _ hxL with he | he
          · exact hxnh he
          · rw [he] at hxhex
            simp at hxhex
        · rw [hnil] at hxL
          have hch : ∀ y ∈ nilUuid.toList, y = '0' ∨ y = '-' := by decide
          rcases hch _ hxL with he | he
          · rw [he] at hxhex
            exact absurd hxhex (by decide)
          · exact hxnh he
        · rw [hmax] at hxL
          have hch : ∀ y ∈ maxUuid.toList, y = 'f' ∨ y = '-' := by decide
          rcases hch _ hxL with he | he
          · rw [he] at hxhex
            exact absurd hxhex (by decide)
          · exact hxnh he
      rw [normalizeUuid, ← hcompact]
      rw [if_neg (by rw [hcompact, List.length_map, hlen]; decide)]
      rw [if_pos (by rw [hvf]; decide)]
    · rw [normalizeUuid]
      rw [if_pos (by
        rw [Bool.not_eq_true']
        apply beq_eq_false_iff_ne.mpr
        rw [List.length_map]
        exact hlen)]

/-- Witness for C7: a concrete UUID accepted in bare and hyphenated form with
the same canonical output, and a concrete non-32-hex input rejected. -/
theorem c7_normalizeUuid_witness :
    normalizeUuid "D8A2C95F2E674F0999230E13A5F8C001" =
      .ok "d8a2c95f-2e67-4f09-9923-0e13a5f8c001" ∧
    normalizeUuid "D8A2C95F-2E67-4F09-9923-0E13A5F8C001" =
      .ok "d8a2c95f-2e67-4f09-9923-0e13a5f8c001" ∧
    normalizeUuid "xyz" = .error (.invalidUuid "xyz") := by
  have h1 := c7_normalizeUuid.1 "D8A2C95F2E674F0999230E13A5F8C001"
    (by decide) (by decide) (by decide)
  have h3 := c7_normalizeUuid.2.2 "xyz" (by decide)
  exact ⟨h1.1, h1.2, h3⟩

/-- C4: the bounded-history merge: on a duplicate-free history it equals
"prepend `v`, drop any later duplicate of `v`, truncate to 3"; when `v` is
already the newest entry of a well-formed history the merge returns it
unchanged; every merge result has length at most 3, no duplicates and `v` at
its head; the Simple Key Authenticator performs no write when the newest
stored IP equals the supplied one and otherwise persists exactly the merged
history; and every written update-path row carries the merged device and IP
histories. -/
theorem c4_mergeMru3_histories :
    (∀ h v, h.Nodup →
       mergeMru3 h v = (v :: h.filter (fun x => x ≠ v)).take 3) ∧
    (∀ h v, h.Nodup → h.length ≤ 3 → h.head? = some v → mergeMru3 h v = h) ∧
    (∀ h v, (mergeMru3 h v).length ≤ 3 ∧ (mergeMru3 h v).Nodup ∧
       (mergeMru3 h v).head? = some v) ∧
    (∀ st creatorId ip c,
       st.creators.find? (fun x => x.creatorId == creatorId) = some c →
       (c.ips.head? = some ip → authenticateCreatorSimple st creatorId ip = (st, .ok c)) ∧
       (c.ips.head? ≠ some ip →
          authenticateCreatorSimple st creatorId ip =
            (storeUpdate st c.id { c with ips := mergeMru3 c.ips ip },
             .ok { c with ips := mergeMru3 c.ips ip }))) ∧
    (∀ st creator ctx st2 c2, updateCreator st creator ctx = (st2, .ok c2) →
       c2 = creator ∨
       (c2.ips = mergeMru3 creator.ips ctx.ip ∧
        c2.hwids = mergeMru3 creator.hwids ctx.hwid)) := by
  refine ⟨fun h v hn => mergeMru3_eq_spec h v hn,
    fun h v hn hl hh => mergeMru3_self_head h v hn hl hh,
    fun h v => ⟨mergeMru3_length h v, mergeMru3_nodup h v, mergeMru3_head h v⟩,
    ?_, ?_⟩
  · intro st creatorId ip c hfind
    constructor
    · intro hip
      rw [authenticateCreatorSimple, hfind]
      dsimp only
      rw [if_neg (by rw [hip]; simp)]
    · intro hip
      rw [authenticateCreatorSimple, hfind]
      dsimp only
      rw [if_pos (by simp only [bne_iff_ne, ne_eq]; exact hip)]
  · intro st creator ctx st2 c2 hok
    rw [updateCreator] at hok
    split at hok
    · split at hok
      · split at hok <;> simp_all
      · simp_all
    · split at hok
      · dsimp only at hok
        split at hok
        · simp only [Prod.mk.injEq, Except.ok.injEq] at hok
          exact Or.inl hok.2.symm
        · simp_all
      · dsimp only at hok
        split at hok
        · simp only [Prod.mk.injEq, Except.ok.injEq] at hok
          exact Or.inl hok.2.symm
        · simp only [Prod.mk.injEq, Except.ok.injEq] at hok
          right
          rw [← hok.2]
          exact ⟨rfl, rfl⟩

/-- C2: `authenticateCreatorForMod` runs the resolution procedure once; if and
only if that run fails with the Prisma `P2002` uniqueness-violation signal,
the entire procedure is invoked a second (and last) time; any other failure is
returned unchanged, and whatever the second invocation produces — including a
second uniqueness violation — is returned unchanged. -/
theorem c2_retry_exactly_once (attempt : Nat → Store × Except CreatorErr Creator) :
    (∀ st c, attempt 0 = (st, .ok c) →
       authenticateCreatorForMod attempt = (st, .ok c)) ∧
    (∀ st e, attempt 0 = (st, .error e) → e ≠ .prismaUniqueViolation →
       authenticateCreatorForMod attempt = (st, .error e)) ∧
    (∀ st, attempt 0 = (st, .error .prismaUniqueViolation) →
       authenticateCreatorForMod attempt = attempt 1) := by
  refine ⟨?_, ?_, ?_⟩
  · intro st c h
    rw [authenticateCreatorForMod, h]
  · intro st e h hne
    rw [authenticateCreatorForMod, h]
    dsimp only
    rw [if_neg (by simp only [beq_iff_eq]; exact hne)]
  · intro st h
    rw [authenticateCreatorForMod, h]
    dsimp only
    rw [if_pos (by decide)]

/-- Witness for C2: a no-op authentication resolves in one run; the loser of
the §4.6 creation race retries once and transparently obtains the winner's
account; that second outcome is returned unchanged. -/
theorem c2_retry_exactly_once_witness :
    authenticateCreatorForMod (soleAttempt noVerify aliceStore aliceAuth) =
      (aliceStore, .ok alice) ∧
    authenticateCreatorForMod raceAttempts = (aliceStore, .ok alice) := by
  constructor
  · exact (c2_retry_exactly_once _).1 aliceStore alice rfl
  · exact ((c2_retry_exactly_once raceAttempts).2.2 emptyStore rfl).trans rfl

/-- C3: cardinality disambiguation of the disjunctive match query: exactly two
matches with a truthy (supplied) effective display name reject with
`IncorrectCreatorIdError` carrying the contested name — the spec's
`NameAlreadyClaimed` — and the store is left untouched; more than two matches,
or exactly two without a truthy name, fail with a node `AssertionError`
(`CreatorErr.assertionFailed`), an error class outside the `CreatorError`
taxonomy, and no account is ever silently picked. -/
theorem c3_cardinality_disambiguation
    (verify : String → Except MinecraftAuthErr MinecraftOfficialProfile)
    (st : Store) (auth : ModCreatorAuthorization)
    (effId : String) (effName effMc : Option String)
    (hEff : modEffective verify auth = .ok (effId, effName, effMc))
    (hId : isUuidV4 effId = true) :
    (∀ n, effName = some n → n ≠ "" →
       (runModQuery st (modSearchConditions effId effName
          (getCreatorNameSlug effName) effMc)).length = 2 →
       authenticateCreatorForModUnsafe verify st auth =
         (st, .error (.incorrectCreatorId n))) ∧
    ((runModQuery st (modSearchConditions effId effName
        (getCreatorNameSlug effName) effMc)).length > 2 →
       authenticateCreatorForModUnsafe verify st auth =
         (st, .error (.assertionFailed assertMsgTwo))) ∧
    (isTruthy effName = false →
       (runModQuery st (modSearchConditions effId effName
          (getCreatorNameSlug effName) effMc)).length = 2 →
       authenticateCreatorForModUnsafe verify st auth =
         (st, .error (.assertionFailed assertMsgName))) := by
  refine ⟨?_, ?_, ?_⟩
  · intro n hName hn hLen
    exact unsafe_two_match_reject verify st auth effId effName effMc n hEff hId hName hn hLen
  · intro hLen
    exact unsafe_over_match verify st auth effId effName effMc hEff hId hLen
  · intro hFalsy hLen
    exact unsafe_two_match_falsy_name verify st auth effId effName effMc hEff hId hFalsy hLen

/-- Witness for C3: claiming `alice`'s name with `bob`'s external ID matches
both rows and is rejected with the contested name, writing nothing. -/
theorem c3_cardinality_disambiguation_witness :
    authenticateCreatorForModUnsafe noVerify twoMatchStore claimAliceAuth =
      (twoMatchStore, .error (.incorrectCreatorId "Alice")) :=
  (c3_cardinality_disambiguation noVerify twoMatchStore claimAliceAuth
    uidB (some "Alice") none rfl (by decide)).1 "Alice" rfl (by decide) rfl

/-- C9 counterexample: the code has no two distinct error types for the two
rejection conditions. The very same request (`claimAliceAuth`) produces the
*identical* error value `IncorrectCreatorIdError "Alice"` both when two
accounts match (the name-conflict condition the spec calls
`NameAlreadyClaimed`) and when a single mismatched account matches (the
ownership condition the spec calls `IdentityMismatch`); a caller cannot tell
the two conditions apart from the error. -/
theorem c9_error_indistinguishable_counterexample :
    (authenticateCreatorForModUnsafe noVerify twoMatchStore claimAliceAuth).2 =
      .error (.incorrectCreatorId "Alice") ∧
    (authenticateCreatorForModUnsafe noVerify aliceStore claimAliceAuth).2 =
      .error (.incorrectCreatorId "Alice") ∧
    (runModQuery twoMatchStore (modSearchConditions uidB (some "Alice")
       (getCreatorNameSlug (some "Alice")) none)).length = 2 ∧
    runModQuery aliceStore (modSearchConditions uidB (some "Alice")
       (getCreatorNameSlug (some "Alice")) none) = [alice] ∧
    alice.creatorId ≠ claimAliceAuth.creatorId ∧
    alice.allowCreatorIdReset = false ∧ alice.minecraftPlayerUuid = none :=
  ⟨rfl, rfl, rfl, rfl, by decide, rfl, rfl⟩

/-- C9 (amended): the name-conflict rejection (exactly two matches) and the
anti-impersonation rejection (single match, mismatched external ID, no reset,
no shared Minecraft UUID) are both signalled by the *same* typed error class,
`IncorrectCreatorIdError`, carrying a creator name; the two conditions are not
distinguishable from the error alone. -/
theorem c9_single_error_class
    (verify : String → Except MinecraftAuthErr MinecraftOfficialProfile)
    (st : Store) (auth : ModCreatorAuthorization)
    (effId : String) (effName effMc : Option String)
    (hEff : modEffective verify auth = .ok (effId, effName, effMc))
    (hId : isUuidV4 effId = true) :
    (∀ n, effName = some n → n ≠ "" →
       (runModQuery st (modSearchConditions effId effName
          (getCreatorNameSlug effName) effMc)).length = 2 →
       authenticateCreatorForModUnsafe verify st auth =
         (st, .error (.incorrectCreatorId n))) ∧
    (∀ c n, runModQuery st (modSearchConditions effId effName
         (getCreatorNameSlug effName) effMc) = [c] →
       c.creatorId ≠ effId → c.allowCreatorIdReset = false →
       ¬(isTruthy effMc = true ∧ c.minecraftPlayerUuid = effMc) →
       c.creatorName = some n → n ≠ "" →
       authenticateCreatorForModUnsafe verify st auth =
         (st, .error (.incorrectCreatorId n))) := by
  constructor
  · intro n hName hn hLen
    exact unsafe_two_match_reject verify st auth effId effName effMc n hEff hId hName hn hLen
  · intro c n hQ hMis hReset hUuid hName hn
    exact unsafe_mismatch_reject verify st auth effId effName effMc c n
      hEff hId hQ hMis hReset hUuid hName hn

/-- Witness for C9: both conjuncts of the amended theorem applied at the
concrete stores of the counterexample scenario. -/
theorem c9_single_error_class_witness :
    authenticateCreatorForModUnsafe noVerify twoMatchStore claimAliceAuth =
      (twoMatchStore, .error (.incorrectCreatorId "Alice")) ∧
    authenticateCreatorForModUnsafe noVerify aliceStore claimAliceAuth =
      (aliceStore, .error (.incorrectCreatorId "Alice")) := by
  constructor
  · exact (c9_single_error_class noVerify twoMatchStore claimAliceAuth
      uidB (some "Alice") none rfl (by decide)).1 "Alice" rfl (by decide) rfl
  · exact (c9_single_error_class noVerify aliceStore claimAliceAuth
      uidB (some "Alice") none rfl (by decide)).2 alice "Alice" rfl
      (by decide) rfl (by decide) rfl (by decide)

/-- C1 counterexample: with `allowCreatorIdReset = true` the update does *not*
always succeed. `slugCreator` (name `"a b"`, slug `"a-b"`, reset flag set) is
the single match of `c1LongAuth` (whose 26-character display name also slugs
to `"a-b"` but carries a different external ID); the claimed-name validation
rejects the update with `InvalidCreatorNameError` instead of succeeding, and
nothing is written. -/
theorem c1_reset_counterexample :
    slugCreator.allowCreatorIdReset = true ∧
    slugCreator.creatorId ≠ c1LongAuth.creatorId ∧
    runModQuery slugStore (modSearchConditions c1LongAuth.creatorId
      (some c1LongName) (getCreatorNameSlug (some c1LongName)) none) = [slugCreator] ∧
    authenticateCreatorForModUnsafe noVerify slugStore c1LongAuth =
      (slugStore, .error (.invalidCreatorName c1LongName)) :=
  ⟨rfl, by decide, rfl, rfl⟩

/-- C1 (amended): for a single matched account whose stored external ID
differs from the effective one and which does not share a non-null linked
Minecraft UUID with the claim: when `allowCreatorIdReset` is false the request
is rejected with `IncorrectCreatorIdError` (the spec's `IdentityMismatch`) and
no write occurs; when `allowCreatorIdReset` is true *and* the effective
display name is unchanged or passes validation, the update succeeds with
exactly one write, the stored external ID becomes the effective one, and the
reset flag is cleared. -/
theorem c1_identity_mismatch_and_reset
    (verify : String → Except MinecraftAuthErr MinecraftOfficialProfile)
    (st : Store) (auth : ModCreatorAuthorization)
    (effId : String) (effName effMc : Option String) (c : Creator)
    (hEff : modEffective verify auth = .ok (effId, effName, effMc))
    (hId : isUuidV4 effId = true)
    (hQ : runModQuery st (modSearchConditions effId effName
       (getCreatorNameSlug effName) effMc) = [c])
    (hMis : c.creatorId ≠ effId)
    (hUuid : ¬(isTruthy effMc = true ∧ c.minecraftPlayerUuid = effMc)) :
    (∀ n, c.allowCreatorIdReset = false → c.creatorName = some n → n ≠ "" →
       authenticateCreatorForModUnsafe verify st auth =
         (st, .error (.incorrectCreatorId n))) ∧
    (c.allowCreatorIdReset = true →
       (c.creatorName = effName ∨ (∃ vn, validateCreatorName effName = .ok vn)) →
       ∃ st2 c2, authenticateCreatorForModUnsafe verify st auth = (st2, .ok c2) ∧
         c2.creatorId = effId ∧ c2.allowCreatorIdReset = false ∧
         st2.writes = st.writes + 1) := by
  constructor
  · intro n hReset hName hn
    exact unsafe_mismatch_reject verify st auth effId effName effMc c n
      hEff hId hQ hMis hReset hUuid hName hn
  · intro hReset hValid
    rw [unsafe_single_match verify st auth effId effName effMc c hEff hId hQ]
    have hVal : ∃ newName,
        (if c.creatorName == (mkContext auth effId effName effMc).effectiveCreatorName then
          Except.ok (mkContext auth effId effName effMc).effectiveCreatorName
        else validateCreatorName (mkContext auth effId effName effMc).effectiveCreatorName) =
          .ok newName := by
      cases hb : (c.creatorName == effName)
      · rcases hValid with h | ⟨vn, hvn⟩
        · rw [beq_iff_eq.mpr h] at hb
          cases hb
        · refine ⟨vn, ?_⟩
          show (if (c.creatorName == effName) = true then _ else _) = _
          rw [hb, if_neg (by simp)]
          exact hvn
      · refine ⟨effName, ?_⟩
        show (if (c.creatorName == effName) = true then _ else _) = _
        rw [hb, if_pos rfl]
        rfl
    obtain ⟨newName, hVal⟩ := hVal
    rw [updateCreator_write st c _ newName (Or.inr (Or.inl hReset)) (Or.inl hMis) hVal]
    exact ⟨_, _, rfl, rfl, rfl, rfl⟩

/-- Witness for C1: the rejection at `aliceStore`, and the successful
migration once `alice`'s reset flag is set. -/
theorem c1_identity_mismatch_and_reset_witness :
    authenticateCreatorForModUnsafe noVerify aliceStore claimAliceAuth =
      (aliceStore, .error (.incorrectCreatorId "Alice")) ∧
    ∃ st2 c2,
      authenticateCreatorForModUnsafe noVerify
        { creators := [{ alice with allowCreatorIdReset := true }],
          nextId := 2, writes := 0 } claimAliceAuth = (st2, .ok c2) ∧
      c2.creatorId = uidB ∧ c2.allowCreatorIdReset = false ∧ st2.writes = 1 := by
  constructor
  · exact (c1_identity_mismatch_and_reset noVerify aliceStore claimAliceAuth
      uidB (some "Alice") none alice rfl (by decide) rfl (by decide)
      (by decide)).1 "Alice" rfl rfl (by decide)
  · exact (c1_identity_mismatch_and_reset noVerify
      { creators := [{ alice with allowCreatorIdReset := true }],
        nextId := 2, writes := 0 } claimAliceAuth
      uidB (some "Alice") none { alice with allowCreatorIdReset := true }
      rfl (by decide) rfl (by decide) (by decide)).2 rfl (Or.inl rfl)

/-- C10: under the `paradox` and `local` providers the effective Minecraft
UUID is `null`, and the update write overwrites the stored link
unconditionally: a successful call that matches an account by its own
external ID persists `minecraftPlayerUuid = null` together with the claimed
provider — the previously linked Minecraft identity is silently unlinked. -/
theorem c10_minecraft_unlink
    (verify : String → Except MinecraftAuthErr MinecraftOfficialProfile)
    (st : Store) (auth : ModCreatorAuthorization)
    (c : Creator) (u : String) (st2 : Store) (c2 : Creator)
    (hProv : auth.creatorIdProvider = Provider.paradox ∨
      auth.creatorIdProvider = Provider.«local»)
    (hId : isUuidV4 auth.creatorId = true)
    (hQ : runModQuery st (modSearchConditions auth.creatorId auth.creatorName
       (getCreatorNameSlug auth.creatorName) none) = [c])
    (hcid : c.creatorId = auth.creatorId)
    (hmc : c.minecraftPlayerUuid = some u)
    (hOk : authenticateCreatorForModUnsafe verify st auth = (st2, .ok c2)) :
    c2.minecraftPlayerUuid = none ∧
    c2.creatorIdProvider = auth.creatorIdProvider ∧
    c2 ∈ st2.creators ∧ st2.writes = st.writes + 1 := by
  have hEff : modEffective verify auth = .ok (auth.creatorId, auth.creatorName, none) := by
    rcases hProv with h | h <;> rw [modEffective, h]
  rw [unsafe_single_match verify st auth auth.creatorId auth.creatorName none c
    hEff hId hQ] at hOk
  rw [updateCreator_pass st c _ (Or.inl hcid)] at hOk
  dsimp only at hOk
  rw [if_neg ?hmod] at hOk
  case hmod =>
    simp only [Bool.not_eq_true', Bool.not_eq_false]
    have hne : c.minecraftPlayerUuid ≠
        (mkContext auth auth.creatorId auth.creatorName none).effectiveMinecraftPlayerUuid := by
      rw [hmc]
      intro hh
      cases hh
    simp [bne_iff_ne, hne]
  split at hOk
  · simp at hOk
  · simp only [Prod.mk.injEq, Except.ok.injEq] at hOk
    have hcmem : c ∈ st.creators := by
      have h1 : c ∈ runModQuery st (modSearchConditions auth.creatorId auth.creatorName
          (getCreatorNameSlug auth.creatorName) none) := by
        rw [hQ]
        exact List.mem_singleton_self c
      exact List.mem_of_mem_filter h1
    rw [← hOk.1, ← hOk.2]
    refine ⟨rfl, rfl, ?_, rfl⟩
    exact List.mem_map.mpr ⟨c, hcmem, by simp⟩

/-- Witness for C10: `carol` (linked to a Minecraft UUID) re-authenticates by
her own external ID under `paradox` and comes back unlinked. -/
theorem c10_minecraft_unlink_witness :
    authenticateCreatorForModUnsafe noVerify carolStore c10Auth =
      ({ creators := [carolAfter], nextId := 2, writes := 1 }, .ok carolAfter) ∧
    carolAfter.minecraftPlayerUuid = none ∧
    carolAfter.creatorIdProvider = Provider.paradox ∧
    carolAfter ∈ [carolAfter] ∧ (1 : Nat) = 0 + 1 := by
  have h := c10_minecraft_unlink noVerify carolStore c10Auth carol mcU
    { creators := [carolAfter], nextId := 2, writes := 1 } carolAfter
    (Or.inl rfl) (by decide) rfl rfl rfl rfl
  exact ⟨rfl, h.1, h.2.1, h.2.2.1, h.2.2.2⟩

/-- C5: when every effective value (name, slug, newest device, newest IP,
external ID, Minecraft UUID, provider) equals the single matched account's
stored value, `authenticateCreatorForModUnsafe` performs zero writes and
returns the stored account unchanged; and a create followed by a re-run of
the identical request returns that same created account. -/
theorem c5_noop_and_idempotent_create
    (verify : String → Except MinecraftAuthErr MinecraftOfficialProfile) :
    (∀ st auth effId effName effMc c,
       modEffective verify auth = .ok (effId, effName, effMc) →
       isUuidV4 effId = true →
       runModQuery st (modSearchConditions effId effName
         (getCreatorNameSlug effName) effMc) = [c] →
       c.creatorName = effName →
       c.creatorNameSlug = getCreatorNameSlug effName →
       c.hwids.head? = some auth.hwid →
       c.ips.head? = some auth.ip →
       c.creatorId = effId →
       c.minecraftPlayerUuid = effMc →
       c.creatorIdProvider = auth.creatorIdProvider →
       authenticateCreatorForModUnsafe verify st auth = (st, .ok c)) ∧
    (∀ st auth effId effName effMc vn,
       modEffective verify auth = .ok (effId, effName, effMc) →
       isUuidV4 effId = true →
       runModQuery st (modSearchConditions effId effName
         (getCreatorNameSlug effName) effMc) = [] →
       validateCreatorName effName = .ok vn →
       ∃ st1 c1,
         authenticateCreatorForModUnsafe verify st auth = (st1, .ok c1) ∧
         st1.writes = st.writes + 1 ∧
         (authenticateCreatorForModUnsafe verify st1 auth).2 = .ok c1) := by
  constructor
  · intro st auth effId effName effMc c hEff hId hQ h1 h2 h3 h4 h5 h6 h7
    rw [unsafe_single_match verify st auth effId effName effMc c hEff hId hQ]
    exact updateCreator_noop st c _ h5 h1 h2 h3 h4 h6 h7
  · intro st auth effId effName effMc vn hEff hId hQ hVal
    have hQ' : st.creators.filter (fun x => (modSearchConditions effId effName
        (getCreatorNameSlug effName) effMc).any (matchesCond x)) = [] := hQ
    have hUnique : st.creators.any
        (fun x => x.creatorId == (mkContext auth effId effName effMc).effectiveCreatorId) =
        false := by
      simp only [List.any_eq_false]
      intro x hx hbeq
      have hno := List.filter_eq_nil_iff.mp hQ' x hx
      apply hno
      apply List.any_eq_true.mpr
      refine ⟨.byCreatorId effId, ?_, hbeq⟩
      rw [modSearchConditions.eq_def]
      exact List.mem_append_left _ (List.mem_append_left _ (List.mem_singleton_self _))
    rw [unsafe_no_match verify st auth effId effName effMc hEff hId hQ,
      createCreator_ok st _ vn hVal hUnique]
    refine ⟨_, _, rfl, rfl, ?_⟩
    set ctx := mkContext auth effId effName effMc with hctx
    set row := createdRow st ctx vn with hrow
    set st1 : Store :=
      { creators := st.creators ++ [row], nextId := st.nextId + 1,
        writes := st.writes + 1 } with hst1
    have hrowMatch : (modSearchConditions effId effName
        (getCreatorNameSlug effName) effMc).any (matchesCond row) = true := by
      apply List.any_eq_true.mpr
      refine ⟨.byCreatorId effId, ?_, ?_⟩
      · rw [modSearchConditions.eq_def]
        exact List.mem_append_left _ (List.mem_append_left _ (List.mem_singleton_self _))
      · show (row.creatorId == effId) = true
        exact beq_self_eq_true effId
    have hQ1 : runModQuery st1 (modSearchConditions effId effName
        (getCreatorNameSlug effName) effMc) = [row] := by
      show (st.creators ++ [row]).filter _ = [row]
      rw [List.filter_append, hQ', List.nil_append, List.filter_cons, hrowMatch]
      rfl
    rw [unsafe_single_match verify st1 auth effId effName effMc row hEff hId hQ1,
      updateCreator_pass st1 row ctx (Or.inl rfl)]
    have key : ∀ nn : Option String, nn = vn → updatedRow row ctx nn = row := by
      intro nn hnn
      subst hnn
      rw [hrow]
      simp only [updatedRow, createdRow, mergeMru3_singleton]
    dsimp only
    split
    · rfl
    · cases hb : (row.creatorName == ctx.effectiveCreatorName)
      · rw [if_neg (show ¬(false = true) by simp)]
        have hvv : validateCreatorName ctx.effectiveCreatorName = .ok vn := hVal
        rw [hvv]
        dsimp only
        rw [key vn rfl]
      · rw [if_pos rfl]
        dsimp only
        have hvn : ctx.effectiveCreatorName = vn := (beq_iff_eq.mp hb).symm
        rw [key _ hvn]

/-- Witness for C5: `alice`'s unchanged re-authentication writes nothing, and
a fresh `Dana` account is created once and returned unchanged on a re-run. -/
theorem c5_noop_and_idempotent_create_witness :
    authenticateCreatorForModUnsafe noVerify aliceStore aliceAuth =
      (aliceStore, .ok alice) ∧
    ∃ st1 c1,
      authenticateCreatorForModUnsafe noVerify emptyStore danaAuth = (st1, .ok c1) ∧
      st1.writes = 1 ∧
      (authenticateCreatorForModUnsafe noVerify st1 danaAuth).2 = .ok c1 := by
  constructor
  · exact (c5_noop_and_idempotent_create noVerify).1 aliceStore aliceAuth uidA
      (some "Alice") none alice rfl (by decide) rfl rfl rfl rfl rfl rfl rfl rfl
  · obtain ⟨st1, c1, h1, h2, h3⟩ := (c5_noop_and_idempotent_create noVerify).2
      emptyStore danaAuth uidB (some "Dana") none (some "Dana") rfl (by decide) rfl rfl
    exact ⟨st1, c1, h1, by rw [h2]; rfl, h3⟩

/-- Witness for C4: concrete merges, and both Simple Key Authenticator cases
on `alice`'s store. -/
theorem c4_mergeMru3_histories_witness :
    mergeMru3 ["a", "b", "c"] "b" = ["b", "a", "c"] ∧
    mergeMru3 ["x", "y"] "x" = ["x", "y"] ∧
    (mergeMru3 ["a", "b", "c"] "d").length ≤ 3 ∧
    authenticateCreatorSimple aliceStore uidA "i1" = (aliceStore, .ok alice) ∧
    authenticateCreatorSimple aliceStore uidA "i9" =
      (storeUpdate aliceStore alice.id { alice with ips := mergeMru3 alice.ips "i9" },
       .ok { alice with ips := mergeMru3 alice.ips "i9" }) := by
  refine ⟨?_, ?_, ?_, ?_, ?_⟩
  · exact (c4_mergeMru3_histories.1 ["a", "b", "c"] "b" (by decide)).trans (by decide)
  · exact c4_mergeMru3_histories.2.1 ["x", "y"] "x" (by decide) (by decide) rfl
  · exact (c4_mergeMru3_histories.2.2.1 ["a", "b", "c"] "d").1
  · exact (c4_mergeMru3_histories.2.2.2.1 aliceStore uidA "i1" alice rfl).1 rfl
  · exact (c4_mergeMru3_histories.2.2.2.1 aliceStore uidA "i9" alice rfl).2 (by decide)

end HallOfFame
